import Mathlib

/-!
# Verification of the workcomp-rates ETL partitioned-upsert engine

Shallow embedding of the core pipeline of the repository:

* `src/ETL/ETL_3.py` — streaming partitioned upsert (merge_partition_data,
  write_partition_idempotent, extract_partition_keys, validate_partition_data,
  _enrich_fact_table, run_etl3_pipeline);
* `src/ETL/etl1_scalable.py` — staging-file compaction (merge_temp_files) and
  content identities (fact_uid_from_struct);
* `src/ETL/utils/s3_etl_utils.py` — path encoding (create_s3_path).

DataFrames are modelled as lists of rows.  Where a claim concerns only the
dedup key of a row, rows are an abstract type together with a key function
(mirroring `unique(subset=dedup_key)`).  Python exceptions inside a `try`
block whose handler the source defines are modelled by an explicit `raises`
flag selecting the handler branch; machine-level failure of an individual
polars/DuckDB primitive is not modelled beyond that.
-/

namespace WorkcompETL

/-! ## PartitionMerger: `merge_partition_data` (src/ETL/ETL_3.py:489-546)

The try-body aligns schemas, adds a transient `row_id`, concatenates
existing + new, deduplicates with `unique(subset=dedup_key, keep="last")`
and drops `row_id` again.  The dedup key is `fact_uid` when that column is
present, otherwise all columns except `row_id`; either way it is a function
of the row, which we abstract as `key`.  Adding and dropping `row_id` is the
identity on the other columns, so it is omitted.  The `except` handler
returns the new rows alone. -/

section MergeDefs

variable {Row K : Type} [DecidableEq K]

/-- Model of polars `unique(subset := key, keep := "last")`: keep a row iff
its key does not occur again later in the list. -/
def uniqueKeepLast (key : Row → K) : List Row → List Row
  | [] => []
  | a :: rest =>
      if key a ∈ rest.map key then uniqueKeepLast key rest
      else a :: uniqueKeepLast key rest

/-- The try-block of `merge_partition_data`: concatenate then dedup-keep-last. -/
def mergePartitionBody (key : Row → K) (existingData newData : List Row) : List Row :=
  uniqueKeepLast key (existingData ++ newData)

/-- `merge_partition_data` including its `except` handler: when the body
raises, the function logs and returns `new_data` alone. -/
def mergePartitionData (key : Row → K) (raises : Bool)
    (existingData newData : List Row) : List Row :=
  if raises then newData else mergePartitionBody key existingData newData

/-- Object-store model: an association list from S3 paths to the rows of the
parquet object stored there. -/
abbrev PartitionStore (Row : Type) : Type := List (String × List Row)

/-- `S3PartitionedETL.partition_exists`. -/
def partitionExists (store : PartitionStore Row) (path : String) : Bool :=
  (store.lookup path).isSome

/-- `S3PartitionedETL.read_partition` (only ever called when the partition
exists; absent path reads as empty). -/
def readPartition (store : PartitionStore Row) (path : String) : List Row :=
  (store.lookup path).getD []

/-- `S3PartitionedETL.upload_partition_to_s3`: overwrite the object at
`path`. -/
def storePut : PartitionStore Row → String → List Row → PartitionStore Row
  | [], path, rows => [(path, rows)]
  | (q, r) :: rest, path, rows =>
      if q = path then (path, rows) :: rest else (q, r) :: storePut rest path rows

/-- `write_partition_idempotent` (src/ETL/ETL_3.py:549-591): merge with the
existing object when present, else write directly. -/
def writePartitionIdempotent (key : Row → K) (raises : Bool)
    (store : PartitionStore Row) (path : String) (data : List Row) :
    PartitionStore Row :=
  if partitionExists store path then
    storePut store path
      (mergePartitionData key raises (readPartition store path) data)
  else
    storePut store path data


end MergeDefs

/-! ## IdentityDeriver: `fact_uid_from_struct` (src/ETL/etl1_scalable.py:372-395)

The source canonicalizes each identity field with `_co` (None becomes the
empty string, everything else `str(x)`), formats the negotiated rate with
`f"{float(rate):.4f}"` (any failure of `float()` yields the empty string),
joins the parts with `"|"` and hashes with `md5`.  The digest function is
kept abstract (`h`): every property claimed holds for an arbitrary function
of the joined message.  `float()` is modelled on plain decimal literals
(optional sign, digits, optional fractional part); exponent and special
forms are outside the model and map to the failure branch.  The `:.4f`
formatting is modelled as exact decimal rounding half to even. -/

/-- Python `"sep".join(parts)`. -/
def pyJoin (sep : String) : List String → String
  | [] => ""
  | [x] => x
  | x :: xs => x ++ sep ++ pyJoin sep xs

/-- `ScalableETL1._co`: convert to string, handling None. -/
def coField (x : Option String) : String := x.getD ""

/-- Numeric value of a list of decimal digit characters. -/
def digitsVal (l : List Char) : Nat :=
  l.foldl (fun acc c => acc * 10 + (c.toNat - 48)) 0

/-- Model of Python `float()` on plain decimal literals, returning the
exact value `m / 10 ^ k` as the pair `(m, k)`; `none` models the exception
branch. -/
def parseDecimal (s : String) : Option (Int × Nat) :=
  let signSplit : List Char × Bool :=
    match s.data with
    | '+' :: t => (t, false)
    | '-' :: t => (t, true)
    | t => (t, false)
  let t := signSplit.1
  let neg := signSplit.2
  let ip := t.takeWhile Char.isDigit
  let rest := t.dropWhile Char.isDigit
  let mk : Nat → Nat → Option (Int × Nat) := fun mag k =>
    some (if neg then -(mag : Int) else (mag : Int), k)
  match rest with
  | [] => if ip.isEmpty then none else mk (digitsVal ip) 0
  | '.' :: fr =>
      if fr.all Char.isDigit && (!ip.isEmpty || !fr.isEmpty) then
        mk (digitsVal (ip ++ fr)) fr.length
      else none
  | _ => none

/-- Round `a / b` (for `b > 0`) half to even, as IEEE formatting does. -/
def roundHalfEven (a b : Int) : Int :=
  let q := a.ediv b
  let r := a.emod b
  if 2 * r < b then q
  else if b < 2 * r then q + 1
  else if Even q then q else q + 1

/-- Zero-pad a (four-digit-bounded) numeral to width 4. -/
def padZeros4 (n : Nat) : String :=
  if n < 10 then "000" ++ toString n
  else if n < 100 then "00" ++ toString n
  else if n < 1000 then "0" ++ toString n
  else toString n

/-- Model of `f"{x:.4f}"` on the exact value `m / 10 ^ k`. -/
def formatFixed4 (m : Int) (k : Nat) : String :=
  let n := roundHalfEven (m * 10 ^ 4) (10 ^ k)
  let a := n.natAbs
  (if m < 0 then "-" else "") ++ toString (a / 10000) ++ "." ++ padZeros4 (a % 10000)

/-- The `rate_str` computation of `fact_uid_from_struct`: empty string for a
missing rate or an unparseable one, else the 4-decimal canonical format. -/
def rateStr (rate : Option String) : String :=
  match rate with
  | none => ""
  | some t =>
      match parseDecimal t with
      | none => ""
      | some (m, k) => formatFixed4 m k

/-- The identity-defining fields of a fact record, as read by
`fact_uid_from_struct` via `s.get(...)` (absent and null both map to
`None`, modelled as `none`). -/
structure FactStruct where
  state : Option String
  year_month : Option String
  payer_slug : Option String
  billing_class : Option String
  code_type : Option String
  code : Option String
  pg_uid : Option String
  pos_set_id : Option String
  negotiated_type : Option String
  negotiation_arrangement : Option String
  expiration_date : Option String
  negotiated_rate : Option String
  provider_group_id_raw : Option String
  deriving DecidableEq

/-- The canonical message `"|".join(parts)` hashed by
`fact_uid_from_struct`. -/
def factUidMessage (s : FactStruct) : String :=
  pyJoin "|"
    [coField s.state, coField s.year_month, coField s.payer_slug,
     coField s.billing_class, coField s.code_type, coField s.code,
     coField s.pg_uid, coField s.pos_set_id, coField s.negotiated_type,
     coField s.negotiation_arrangement, coField s.expiration_date,
     rateStr s.negotiated_rate, coField s.provider_group_id_raw]

/-- `fact_uid_from_struct`, with the md5 digest abstracted as `h`. -/
def factUidFromStruct (h : String → String) (s : FactStruct) : String :=
  h (factUidMessage s)


/-! ## PathEncoder: `create_s3_path` (src/ETL/utils/s3_etl_utils.py:61-86)

The source builds `path_parts = [prefix]`, appends one `dim=value` segment
per business dimension (a missing value becomes the literal `"null"`, then
`/`, `\` and space are each replaced by `_`), appends `year=` and zero-padded
`month=` segments, and returns
`s3://<bucket>/<joined parts>/fact_rate_enriched.parquet`.  The
`datetime.now()` fallback for an absent year/month is outside the model:
the pipeline always passes both (they are partition columns), so the key
carries them as plain strings. -/

/-- Python `str.replace` at single-character arguments: replace every
occurrence of `c` by `d`. -/
def replChar (c d : Char) (s : String) : String :=
  String.mk (s.data.map fun x => if x = c then d else x)

/-- The S3-safe encoding of `create_s3_path`:
`.replace("/", "_").replace("\\", "_").replace(" ", "_")`. -/
def sanitizeS3 (s : String) : String :=
  replChar ' ' '_' (replChar '\\' '_' (replChar '/' '_' s))

/-- `partition_values.get(dim)` with `None` encoded as the literal
`"null"`, then sanitized. -/
def s3Value (v : Option String) : String :=
  sanitizeS3 (match v with | none => "null" | some s => s)

/-- Python `str.zfill(2)`. -/
def zfill2 (s : String) : String :=
  if 2 ≤ s.data.length then s
  else
    match s.data with
    | '+' :: t => String.mk ('+' :: (List.replicate (1 - t.length) '0' ++ t))
    | '-' :: t => String.mk ('-' :: (List.replicate (1 - t.length) '0' ++ t))
    | t => String.mk (List.replicate (2 - t.length) '0' ++ t)

/-- The partition row the pipeline passes to `create_s3_path`
(ETL_3.py:452): one value per `PARTITION_COLUMNS` entry, so the taxonomy
value is keyed `primary_taxonomy_code` (missing or null modelled as
`none`); year and month are always supplied by the pipeline (the
`datetime.now()` default for an absent year/month never fires). -/
structure S3PartitionKey where
  payer_slug : Option String
  state : Option String
  billing_class : Option String
  procedure_set : Option String
  procedure_class : Option String
  primary_taxonomy_code : Option String
  stat_area_name : Option String
  year : String
  month : String
  deriving DecidableEq

/-- `partition_values.get(dim)` over the business-dimension loop of
`create_s3_path`.  The encoder's dims list asks for `taxonomy`
(s3_etl_utils.py:66), a key the pipeline's dict never holds — the dict is
keyed `primary_taxonomy_code` — so that lookup is always `None` and every
produced path carries the segment `taxonomy=null`. -/
def s3PartitionGet (k : S3PartitionKey) (dim : String) : Option String :=
  if dim = "payer_slug" then k.payer_slug
  else if dim = "state" then k.state
  else if dim = "billing_class" then k.billing_class
  else if dim = "procedure_set" then k.procedure_set
  else if dim = "procedure_class" then k.procedure_class
  else if dim = "primary_taxonomy_code" then k.primary_taxonomy_code
  else if dim = "stat_area_name" then k.stat_area_name
  else none

/-- The `path_parts` list of `create_s3_path`: one `dim=value` segment per
entry of the encoder's dims list, then the time segments. -/
def createS3PathParts (k : S3PartitionKey) (pfx : String) : List String :=
  [pfx,
   "payer_slug=" ++ s3Value (s3PartitionGet k "payer_slug"),
   "state=" ++ s3Value (s3PartitionGet k "state"),
   "billing_class=" ++ s3Value (s3PartitionGet k "billing_class"),
   "procedure_set=" ++ s3Value (s3PartitionGet k "procedure_set"),
   "procedure_class=" ++ s3Value (s3PartitionGet k "procedure_class"),
   "taxonomy=" ++ s3Value (s3PartitionGet k "taxonomy"),
   "stat_area_name=" ++ s3Value (s3PartitionGet k "stat_area_name"),
   "year=" ++ k.year,
   "month=" ++ zfill2 k.month]

/-- `create_s3_path`. -/
def createS3Path (bucket : String) (k : S3PartitionKey) (pfx : String) : String :=
  "s3://" ++ bucket ++ "/" ++ pyJoin "/" (createS3PathParts k pfx)
    ++ "/fact_rate_enriched.parquet"

/-! ## Enricher and PartitionKeyResolver
(`_enrich_fact_table`, src/ETL/ETL_3.py:298-409 and
`extract_partition_keys`, src/ETL/ETL_3.py:678-867)

A dataframe is a frame-level column list plus a list of rows; a row maps
each column name to a nullable value.  polars `join(how="left")` emits one
output row per match and keeps unmatched left rows with nulls in the right
columns; the right join-key columns are dropped and conflicting right
column names get the suffix.  `select` is modelled as plain projection (a
requested column that is absent reads as a null column).  Join keys that
are null never match, as in polars. -/

/-- A dataframe row: column name to nullable value. -/
abbrev DRow : Type := List (String × Option String)

/-- A dataframe: column list plus rows. -/
structure Frame where
  cols : List String
  rows : List DRow
  deriving DecidableEq

/-- Cell of a row at a column (an absent column reads as null). -/
def rowCell (r : DRow) (c : String) : Option String :=
  (r.lookup c).getD none

/-- One `with_columns` alias: replace the column in place when the row has
it, else append it. -/
def setCol (r : DRow) (c : String) (v : Option String) : DRow :=
  if (r.lookup c).isSome then
    r.map (fun p => if p.1 = c then (c, v) else p)
  else r ++ [(c, v)]

/-- `pl.when(col.is_null()).then(lit("__NULL__")).otherwise(col)`. -/
def sentinelizeCell (v : Option String) : Option String :=
  match v with
  | none => some "__NULL__"
  | some s => some s

/-- polars `str.slice(start, len)`. -/
def strSlice (s : String) (start len : Nat) : String :=
  String.mk ((s.data.drop start).take len)

/-- The year cell derived from `year_month`. -/
def yearCell (v : Option String) : Option String :=
  match v with
  | none => some "__NULL__"
  | some s => some (strSlice s 0 4)

/-- The month cell derived from `year_month`. -/
def monthCell (v : Option String) : Option String :=
  match v with
  | none => some "__NULL__"
  | some s => some (strSlice s 5 2)

/-- The year/month `with_columns` of `extract_partition_keys`. -/
def yearMonthStep (cols : List String) (r : DRow) : DRow :=
  if "year_month" ∈ cols then
    setCol (setCol r "year" (yearCell (rowCell r "year_month")))
      "month" (monthCell (rowCell r "year_month"))
  else
    setCol (setCol r "year" (some "__NULL__")) "month" (some "__NULL__")

/-- One sentinel-or-copy partition-key column of `extract_partition_keys`:
use the source column when the frame has it, else the literal sentinel. -/
def sentStep (srcCol dstCol : String) (cols : List String) (r : DRow) : DRow :=
  if srcCol ∈ cols then
    setCol r dstCol (sentinelizeCell (rowCell r srcCol))
  else setCol r dstCol (some "__NULL__")

/-- The state column of `extract_partition_keys`: geo state first, fact
state as fallback, sentinel otherwise. -/
def stateStep (cols : List String) (r : DRow) : DRow :=
  if "state_geo" ∈ cols then
    setCol r "state" (sentinelizeCell (rowCell r "state_geo"))
  else if "state" ∈ cols then
    setCol r "state" (sentinelizeCell (rowCell r "state"))
  else setCol r "state" (some "__NULL__")

/-- The try-body of `extract_partition_keys` on one row, given the frame
columns (the source checks membership in `enriched_df.columns`). -/
def extractRow (cols : List String) (r : DRow) : DRow :=
  sentStep "stat_area_name" "stat_area_name" cols
    (sentStep "primary_taxonomy_code" "primary_taxonomy_code" cols
      (sentStep "proc_class" "procedure_class" cols
        (sentStep "proc_set" "procedure_set" cols
          (sentStep "billing_class" "billing_class" cols
            (stateStep cols
              (sentStep "payer_slug" "payer_slug" cols
                (yearMonthStep cols r)))))))

/-- The except-handler of `extract_partition_keys` on one row: every
partition column becomes the literal sentinel. -/
def extractRowFallback (r : DRow) : DRow :=
  setCol (setCol (setCol (setCol (setCol (setCol (setCol (setCol (setCol r
    "year" (some "__NULL__"))
    "month" (some "__NULL__"))
    "payer_slug" (some "__NULL__"))
    "state" (some "__NULL__"))
    "billing_class" (some "__NULL__"))
    "procedure_set" (some "__NULL__"))
    "procedure_class" (some "__NULL__"))
    "primary_taxonomy_code" (some "__NULL__"))
    "stat_area_name" (some "__NULL__")

/-- `ETL3Config.PARTITION_COLUMNS` (src/ETL/ETL_3.py:87-90). -/
def partitionColumns : List String :=
  ["payer_slug", "state", "billing_class", "procedure_set",
   "procedure_class", "primary_taxonomy_code", "stat_area_name",
   "year", "month"]

/-- The columns appended by `extract_partition_keys`, in operation order. -/
def extractAddedCols : List String :=
  ["year", "month", "payer_slug", "state", "billing_class",
   "procedure_set", "procedure_class", "primary_taxonomy_code",
   "stat_area_name"]

/-- `extract_partition_keys` at frame level, including the handler branch
(`raises` true selects it): the function always returns a frame. -/
def extractPartitionKeys (raises : Bool) (f : Frame) : Frame :=
  { cols := f.cols ++ extractAddedCols.filter (fun c => c ∉ f.cols),
    rows := if raises then f.rows.map extractRowFallback
            else f.rows.map (extractRow f.cols) }

/-- Null-rejecting key comparison of a polars join. -/
def joinMatch (onPairs : List (String × String)) (a b : DRow) : Bool :=
  onPairs.all fun p =>
    match rowCell a p.1, rowCell b p.2 with
    | some x, some y => x == y
    | _, _ => false

/-- Right columns kept by a join: everything but the right join keys. -/
def rightKeepCols (rcols : List String) (onPairs : List (String × String)) :
    List String :=
  rcols.filter fun c => c ∉ onPairs.map Prod.snd

/-- Right column name in the joined frame: suffix on conflict. -/
def renameRight (leftCols : List String) (suffix c : String) : String :=
  if c ∈ leftCols then c ++ suffix else c

/-- One output row of a left join: the left row extended with the kept
right columns (null when unmatched). -/
def joinCombine (leftCols : List String) (suffix : String)
    (rightKeep : List String) (a : DRow) (b : Option DRow) : DRow :=
  a ++ rightKeep.map fun c =>
    (renameRight leftCols suffix c,
     match b with
     | some br => rowCell br c
     | none => none)

/-- polars `DataFrame.join(other, how="left")`. -/
def leftJoin (L R : Frame) (onPairs : List (String × String))
    (suffix : String) : Frame :=
  let rightKeep := rightKeepCols R.cols onPairs
  { cols := L.cols ++ rightKeep.map (renameRight L.cols suffix),
    rows := L.rows.flatMap fun a =>
      match R.rows.filter (fun b => joinMatch onPairs a b) with
      | [] => [joinCombine L.cols suffix rightKeep a none]
      | ms => ms.map fun b => joinCombine L.cols suffix rightKeep a (some b) }

/-- polars `select`, modelled as total projection. -/
def selectCols (cs : List String) (f : Frame) : Frame :=
  { cols := cs, rows := f.rows.map fun r => cs.map fun c => (c, rowCell r c) }

/-- polars `filter`. -/
def filterRows (p : DRow → Bool) (f : Frame) : Frame :=
  { cols := f.cols, rows := f.rows.filter p }

/-- The dimension tables of `run_etl3_pipeline` (each loaded only when its
file exists). -/
structure Dimensions where
  code : Option Frame
  code_cat : Option Frame
  payer : Option Frame
  provider_group : Option Frame
  pos_set : Option Frame
  npi : Option Frame
  npi_address_geo : Option Frame

/-- The cross-reference tables of `run_etl3_pipeline`. -/
structure Xrefs where
  pg_member_npi : Option Frame
  pg_member_tin : Option Frame

/-- One conditional enrichment join of `_enrich_fact_table`. -/
def joinIfSome (e : Frame) (o : Option Frame)
    (onPairs : List (String × String)) (suffix : String) : Frame :=
  match o with
  | some d => leftJoin e d onPairs suffix
  | none => e

/-- The NPI step of `_enrich_fact_table`: fact to xref to npi, only when
both tables are present. -/
def joinNpiStep (e : Frame) (x d : Option Frame) : Frame :=
  match x, d with
  | some xf, some df =>
      leftJoin (leftJoin e xf [("pg_uid", "pg_uid")] "_right") df
        [("npi", "npi")] "_right"
  | _, _ => e

/-- The geo columns selected for the geolocation join. -/
def geoSelectCols : List String :=
  ["npi", "state", "latitude", "longitude", "county_name", "county_fips",
   "stat_area_name", "stat_area_code", "matched_address"]

/-- The geolocation step of `_enrich_fact_table`: LOCATION addresses only,
geo fields only, joined on npi with suffix `_geo`. -/
def joinGeoStep (e : Frame) (o : Option Frame) : Frame :=
  match o with
  | some d =>
      if "npi" ∈ e.cols then
        leftJoin e
          (selectCols geoSelectCols
            (filterRows (fun r => rowCell r "address_purpose" == some "LOCATION") d))
          [("npi", "npi")] "_geo"
      else e
  | none => e

/-- `_enrich_fact_table`: the conditional left joins in source order, then
`extract_partition_keys`. -/
def enrichFactTable (raises : Bool) (factRate : Frame) (dims : Dimensions)
    (xrefs : Xrefs) : Frame :=
  let e1 := joinIfSome factRate dims.code
    [("code_type", "code_type"), ("code", "code")] "_right"
  let e2 := joinIfSome e1 dims.code_cat [("code", "proc_cd")] "_right"
  let e3 := joinIfSome e2 dims.payer [("payer_slug", "payer_slug")] "_right"
  let e4 := joinIfSome e3 dims.provider_group [("pg_uid", "pg_uid")] "_right"
  let e5 := joinIfSome e4 dims.pos_set [("pos_set_id", "pos_set_id")] "_right"
  let e6 := joinNpiStep e5 xrefs.pg_member_npi dims.npi
  let e7 := joinIfSome e6 xrefs.pg_member_tin [("pg_uid", "pg_uid")] "_right"
  let e8 := joinGeoStep e7 dims.npi_address_geo
  extractPartitionKeys raises e8

/-! ## BatchCompactor: `merge_temp_files` (src/ETL/etl1_scalable.py:491-621)

No temp files returns without output; a single temp file is renamed; at
most `max_files_per_batch` files are merged in one statement; more files
are first merged per batch into intermediates, then the intermediates are
merged.  The fact table is concatenated, every other table is reduced by
`SELECT DISTINCT`.  DuckDB DISTINCT returns the distinct rows; the order
of a COPY result is unspecified, so results are compared as multisets. -/

section CompactionDefs

variable {Row : Type} [DecidableEq Row]

/-- `range(0, len(files), batch)` slicing. -/
def toBatches (b : Nat) : List Row → List (List Row)
  | [] => []
  | x :: xs => (x :: xs.take (b - 1)) :: toBatches b (xs.drop (b - 1))
termination_by l => l.length
decreasing_by
  simp only [List.length_drop, List.length_cons]
  omega

/-- One COPY statement over a set of files: concatenation for the fact
table, `SELECT DISTINCT` for dimension tables. -/
def mergeOnce (isFact : Bool) (files : List (List Row)) : List Row :=
  if isFact then files.flatten else files.flatten.dedup

/-- `merge_temp_files` (the written final object; `none` when there are no
temp files). -/
def mergeTempFiles (tableName : String) (maxFilesPerBatch : Nat)
    (tempFiles : List (List Row)) : Option (List Row) :=
  match tempFiles with
  | [] => none
  | [f] => some f
  | _ =>
      if tempFiles.length ≤ maxFilesPerBatch then
        some (mergeOnce (tableName == "fact_rate") tempFiles)
      else
        let intermediates :=
          (toBatches maxFilesPerBatch tempFiles).map
            (mergeOnce (tableName == "fact_rate"))
        match intermediates with
        | [g] => some g
        | _ => some (mergeOnce (tableName == "fact_rate") intermediates)

/-- Equality of compaction outputs as unordered row collections (COPY
result order is unspecified). -/
def optPerm : Option (List Row) → Option (List Row) → Prop
  | none, none => True
  | some l₁, some l₂ => l₁.Perm l₂
  | _, _ => False

end CompactionDefs

/-! ## Runner: `run_etl3_pipeline` (src/ETL/ETL_3.py:140-295)

The chunk loop catches any chunk error and continues; an empty chunk
breaks the loop.  The outcome of the body of one iteration (its enriched
height and partition count, or its failure) is the loop input.  The
returned summary dict is modelled as a structure holding its
claim-relevant fields, plus the verbatim key list of the dict literal; the
two wall-clock timing entries carry no row accounting and are left out of
the structure. -/

/-- What processing one chunk did: succeeded with a height and a number of
created partitions, or raised and was skipped. -/
inductive ChunkOutcome where
  | ok (height : Nat) (partitionsCreated : Nat)
  | failed
  deriving DecidableEq

/-- The accumulation of `processed_rows` and `total_partitions` over the
chunk loop, with the empty-chunk break. -/
def runChunkLoop : Nat × Nat → List ChunkOutcome → Nat × Nat
  | acc, [] => acc
  | acc, .failed :: rest => runChunkLoop acc rest
  | acc, .ok h p :: rest =>
      if h = 0 then acc else runChunkLoop (acc.1 + h, acc.2 + p) rest

/-- The summary dict of `run_etl3_pipeline` (src/ETL/ETL_3.py:277-288). -/
structure Etl3Summary where
  total_input_rows : Nat
  total_chunks_processed : Nat
  total_partitions_created : Nat
  s3_bucket : String
  s3_prefix : String
  athena_database : String
  athena_table : String
  status : String
  deriving DecidableEq

/-- The keys of the summary dict literal, verbatim. -/
def summaryKeys : List String :=
  ["total_input_rows", "total_chunks_processed", "total_partitions_created",
   "total_processing_time", "rows_per_second", "s3_bucket", "s3_prefix",
   "athena_database", "athena_table", "status"]

/-- `run_etl3_pipeline` reduced to its chunk loop and summary:
`total_chunks_processed` is the planned chunk count computed before the
loop, not the number of chunks that succeeded. -/
def runEtl3Pipeline (bucket pfx db table : String)
    (outcomes : List ChunkOutcome) : Etl3Summary :=
  let res := runChunkLoop (0, 0) outcomes
  { total_input_rows := res.1,
    total_chunks_processed := outcomes.length,
    total_partitions_created := res.2,
    s3_bucket := bucket,
    s3_prefix := pfx,
    athena_database := db,
    athena_table := table,
    status := "SUCCESS" }

/-! ## Theorems about the embedded definitions -/

section MergeProofs

variable {Row K : Type} [DecidableEq K]

theorem uniqueKeepLast_sublist (key : Row → K) (l : List Row) :
    List.Sublist (uniqueKeepLast key l) l := by
  induction l with
  | nil => simp [uniqueKeepLast]
  | cons a rest ih =>
      by_cases h : key a ∈ rest.map key
      · simpa [uniqueKeepLast, h] using ih.cons a
      · simpa [uniqueKeepLast, h] using ih.cons₂ a

theorem mem_map_key_uniqueKeepLast (key : Row → K) (l : List Row) (k : K) :
    k ∈ (uniqueKeepLast key l).map key ↔ k ∈ l.map key := by
  induction l with
  | nil => simp [uniqueKeepLast]
  | cons a rest ih =>
      by_cases h : key a ∈ rest.map key
      · rw [uniqueKeepLast, if_pos h, List.map_cons, ih]
        constructor
        · exact fun hk => List.mem_cons_of_mem _ hk
        · intro hk
          rcases List.mem_cons.1 hk with rfl | hk2
          · exact h
          · exact hk2
      · rw [uniqueKeepLast, if_neg h, List.map_cons, List.map_cons,
          List.mem_cons, List.mem_cons, ih]

theorem nodup_map_key_uniqueKeepLast (key : Row → K) (l : List Row) :
    ((uniqueKeepLast key l).map key).Nodup := by
  induction l with
  | nil => simp [uniqueKeepLast]
  | cons a rest ih =>
      by_cases h : key a ∈ rest.map key
      · simpa [uniqueKeepLast, h] using ih
      · simp only [uniqueKeepLast, if_neg h, List.map_cons, List.nodup_cons]
        exact ⟨fun hk => h ((mem_map_key_uniqueKeepLast key rest (key a)).1 hk), ih⟩

theorem uniqueKeepLast_length (key : Row → K) (l : List Row) :
    (uniqueKeepLast key l).length = (l.map key).dedup.length := by
  have hperm : ((uniqueKeepLast key l).map key).Perm (l.map key).dedup := by
    refine (List.perm_ext_iff_of_nodup (nodup_map_key_uniqueKeepLast key l)
      (List.nodup_dedup _)).2 ?_
    intro k
    rw [mem_map_key_uniqueKeepLast, List.mem_dedup]
  have := hperm.length_eq
  simpa [List.length_map] using this

theorem uniqueKeepLast_mem_suffix (key : Row → K) (l₁ l₂ : List Row) (r : Row)
    (hr : r ∈ uniqueKeepLast key (l₁ ++ l₂)) (hk : key r ∈ l₂.map key) :
    r ∈ l₂ := by
  induction l₁ with
  | nil =>
      exact (uniqueKeepLast_sublist key l₂).mem hr
  | cons a rest ih =>
      by_cases h : key a ∈ (rest ++ l₂).map key
      · rw [List.cons_append, uniqueKeepLast, if_pos h] at hr
        exact ih hr
      · rw [List.cons_append, uniqueKeepLast, if_neg h] at hr
        rcases List.mem_cons.1 hr with rfl | hr2
        · exact absurd (by simpa using Or.inr hk) h
        · exact ih hr2

/-- **C1** — `merge_partition_data(E, N)` (non-raising execution) returns
exactly one row per dedup key of `E ++ N` (size `|E ∪dedup N|`), its rows
have pairwise distinct dedup keys, and any surviving row whose key occurs in
`N` is a row of `N` (last-write-wins: new data survives a key conflict). -/
theorem merge_partition_data_dedup (key : Row → K) (E N : List Row) :
    (mergePartitionData key false E N).length = ((E ++ N).map key).dedup.length
      ∧ ((mergePartitionData key false E N).map key).Nodup
      ∧ ∀ r ∈ mergePartitionData key false E N, key r ∈ N.map key → r ∈ N := by
  refine ⟨?_, ?_, ?_⟩
  · simpa [mergePartitionData, mergePartitionBody] using
      uniqueKeepLast_length key (E ++ N)
  · simpa [mergePartitionData, mergePartitionBody] using
      nodup_map_key_uniqueKeepLast key (E ++ N)
  · intro r hr hk
    exact uniqueKeepLast_mem_suffix key E N r
      (by simpa [mergePartitionData, mergePartitionBody] using hr) hk

/-- Witness for C1 at a concrete merge: key `k` occurs in both sides and the
surviving row is the one from the new batch. -/
theorem merge_partition_data_dedup_witness :
    (("k", 3) : String × Nat) ∈ [("k", 3), ("b", 4)] :=
  (merge_partition_data_dedup Prod.fst [("a", 1), ("k", 2)] [("k", 3), ("b", 4)]).2.2
    ("k", 3) (by decide) (by decide)

theorem uniqueKeepLast_eq_self (key : Row → K) (l : List Row)
    (h : (l.map key).Nodup) : uniqueKeepLast key l = l := by
  induction l with
  | nil => rfl
  | cons a rest ih =>
      simp only [List.map_cons, List.nodup_cons] at h
      rw [uniqueKeepLast, if_neg h.1, ih h.2]

theorem uniqueKeepLast_append_left_absorbed (key : Row → K) (l₁ l₂ : List Row)
    (h : ∀ r ∈ l₁, key r ∈ l₂.map key) :
    uniqueKeepLast key (l₁ ++ l₂) = uniqueKeepLast key l₂ := by
  induction l₁ with
  | nil => rfl
  | cons a rest ih =>
      have ha : key a ∈ (rest ++ l₂).map key := by
        simp only [List.map_append, List.mem_append]
        exact Or.inr (h a (List.mem_cons_self a rest))
      rw [List.cons_append, uniqueKeepLast, if_pos ha,
        ih fun r hr => h r (List.mem_cons_of_mem a hr)]

/-- **C2 counterexample** — a chunk whose rows share a fact_uid: the first
pass stores both rows verbatim (the first-write path never deduplicates),
the second pass collapses them, so running twice differs from running
once. -/
theorem pipeline_twice_differs_cex :
    writePartitionIdempotent Prod.fst false
        (writePartitionIdempotent Prod.fst false
          ([] : PartitionStore (String × Nat)) "p" [("k", 1), ("k", 2)])
        "p" [("k", 1), ("k", 2)]
      ≠ writePartitionIdempotent Prod.fst false
          ([] : PartitionStore (String × Nat)) "p" [("k", 1), ("k", 2)] := by
  decide

/-- **C2 (amended)** — when the chunk rows have pairwise distinct dedup keys
(fact_uids), running the write against an empty target twice produces
exactly the store produced by running it once: the second pass detects the
existing partition, merges, and dedup-by-UID collapses the duplicate pass. -/
theorem pipeline_twice_eq_once (key : Row → K) (path : String) (N : List Row)
    (h : (N.map key).Nodup) :
    writePartitionIdempotent key false
        (writePartitionIdempotent key false ([] : PartitionStore Row) path N)
        path N
      = writePartitionIdempotent key false ([] : PartitionStore Row) path N := by
  have honce : writePartitionIdempotent key false ([] : PartitionStore Row) path N
      = [(path, N)] := by
    simp [writePartitionIdempotent, partitionExists, storePut, PartitionStore]
  rw [honce]
  have hexists : partitionExists ([(path, N)] : PartitionStore Row) path = true := by
    simp [partitionExists, List.lookup]
  have hread : readPartition ([(path, N)] : PartitionStore Row) path = N := by
    simp [readPartition, List.lookup]
  rw [writePartitionIdempotent, if_pos hexists, hread]
  rw [mergePartitionData, if_neg (by simp), mergePartitionBody,
    uniqueKeepLast_append_left_absorbed key N N
      (fun r hr => List.mem_map_of_mem key hr),
    uniqueKeepLast_eq_self key N h]
  simp [storePut]

/-- Witness for the amended C2 on a duplicate-free chunk. -/
theorem pipeline_twice_eq_once_witness :
    writePartitionIdempotent Prod.fst false
        (writePartitionIdempotent Prod.fst false
          ([] : PartitionStore (String × Nat)) "p" [("a", 1), ("b", 2)])
        "p" [("a", 1), ("b", 2)]
      = writePartitionIdempotent Prod.fst false
          ([] : PartitionStore (String × Nat)) "p" [("a", 1), ("b", 2)] :=
  pipeline_twice_eq_once Prod.fst "p" [("a", 1), ("b", 2)] (by decide)

theorem storePut_lookup_self (store : PartitionStore Row) (path : String)
    (rows : List Row) : (storePut store path rows).lookup path = some rows := by
  induction store with
  | nil => simp [storePut, List.lookup]
  | cons e rest ih =>
      obtain ⟨q, r⟩ := e
      by_cases h : q = path
      · subst h
        simp [storePut, List.lookup]
      · rw [storePut, if_neg h, List.lookup]
        have hbeq : (path == q) = false :=
          beq_eq_false_iff_ne.2 fun hq => h hq.symm
        rw [hbeq]
        exact ih

/-- **C10** — if the body of `merge_partition_data` raises, the handler
returns the new rows alone and `write_partition_idempotent` overwrites the
existing object with them: afterwards the partition holds exactly `N`, and
every previously stored row whose dedup key does not occur in `N` is gone
from the rewritten file. -/
theorem merge_error_drops_existing (key : Row → K)
    (store : PartitionStore Row) (path : String) (E N : List Row)
    (h : store.lookup path = some E) :
    (writePartitionIdempotent key true store path N).lookup path = some N
      ∧ ∀ r ∈ E, key r ∉ N.map key →
          r ∉ readPartition (writePartitionIdempotent key true store path N) path := by
  have hw : writePartitionIdempotent key true store path N = storePut store path N := by
    rw [writePartitionIdempotent, if_pos (by simp [partitionExists, h]),
      mergePartitionData]
    simp
  refine ⟨hw ▸ storePut_lookup_self store path N, ?_⟩
  intro r hr hk
  rw [hw, readPartition, storePut_lookup_self]
  intro hmem
  exact hk (List.mem_map_of_mem key hmem)

/-- Witness for C10: a stored row with a key absent from the new batch is
lost when the merge raises. -/
theorem merge_error_drops_existing_witness :
    (writePartitionIdempotent Prod.fst true
        ([("p", [(("a", 0) : String × Nat)])]) "p" [("b", 1)]).lookup "p"
      = some [("b", 1)]
      ∧ (("a", 0) : String × Nat) ∉ readPartition
          (writePartitionIdempotent Prod.fst true
            ([("p", [(("a", 0) : String × Nat)])]) "p" [("b", 1)]) "p" := by
  have h := merge_error_drops_existing Prod.fst
    ([("p", [(("a", 0) : String × Nat)])]) "p" [("a", 0)] [("b", 1)] (by decide)
  exact ⟨h.1, h.2 ("a", 0) (by decide) (by decide)⟩

end MergeProofs

theorem roundHalfEven_congr (a₁ b₁ a₂ b₂ : Int) (hb₁ : 0 < b₁) (hb₂ : 0 < b₂)
    (h : a₁ * b₂ = a₂ * b₁) : roundHalfEven a₁ b₁ = roundHalfEven a₂ b₂ := by
  have e₁ : b₁ * (a₁.ediv b₁) + a₁.emod b₁ = a₁ := Int.ediv_add_emod a₁ b₁
  have e₂ : b₂ * (a₂.ediv b₂) + a₂.emod b₂ = a₂ := Int.ediv_add_emod a₂ b₂
  set q₁ := a₁.ediv b₁ with hq₁
  set r₁ := a₁.emod b₁ with hr₁
  set q₂ := a₂.ediv b₂ with hq₂
  set r₂ := a₂.emod b₂ with hr₂
  have hr₁0 : 0 ≤ r₁ := Int.emod_nonneg a₁ (ne_of_gt hb₁)
  have hr₂0 : 0 ≤ r₂ := Int.emod_nonneg a₂ (ne_of_gt hb₂)
  have hr₁b : r₁ < b₁ := Int.emod_lt_of_pos a₁ hb₁
  have hr₂b : r₂ < b₂ := Int.emod_lt_of_pos a₂ hb₂
  have key : b₁ * b₂ * q₁ + r₁ * b₂ = b₁ * b₂ * q₂ + r₂ * b₁ := by
    have h' : (b₁ * q₁ + r₁) * b₂ = (b₂ * q₂ + r₂) * b₁ := by
      rw [e₁, e₂]; exact h
    linear_combination h'
  have hprod : (0 : Int) < b₁ * b₂ := mul_pos hb₁ hb₂
  have hlt₁ : r₁ * b₂ < b₁ * b₂ := by
    have := mul_lt_mul_of_pos_right hr₁b hb₂
    linarith
  have hlt₂ : r₂ * b₁ < b₁ * b₂ := by
    have := mul_lt_mul_of_pos_right hr₂b hb₁
    linarith [mul_comm r₂ b₁, mul_comm b₂ b₁]
  have hge₁ : 0 ≤ r₁ * b₂ := mul_nonneg hr₁0 hb₂.le
  have hge₂ : 0 ≤ r₂ * b₁ := mul_nonneg hr₂0 hb₁.le
  have hq12 : q₁ = q₂ := by
    have hs₁ : b₁ * b₂ * q₁ < b₁ * b₂ * (q₂ + 1) := by
      have hexp : b₁ * b₂ * (q₂ + 1) = b₁ * b₂ * q₂ + b₁ * b₂ := by ring
      linarith
    have hs₂ : b₁ * b₂ * q₂ < b₁ * b₂ * (q₁ + 1) := by
      have hexp : b₁ * b₂ * (q₁ + 1) = b₁ * b₂ * q₁ + b₁ * b₂ := by ring
      linarith
    have h₁ : q₁ < q₂ + 1 := lt_of_mul_lt_mul_left hs₁ hprod.le
    have h₂ : q₂ < q₁ + 1 := lt_of_mul_lt_mul_left hs₂ hprod.le
    omega
  have hrel : r₁ * b₂ = r₂ * b₁ := by
    rw [hq12] at key; linarith
  have hhalf₁ : (2 * r₁ < b₁) ↔ (2 * r₂ < b₂) := by
    constructor
    · intro hh
      have := mul_lt_mul_of_pos_right hh hb₂
      have hcmp : 2 * (r₂ * b₁) < b₁ * b₂ := by
        rw [← hrel]; linarith [mul_comm b₁ b₂]
      nlinarith
    · intro hh
      have := mul_lt_mul_of_pos_right hh hb₁
      have hcmp : 2 * (r₁ * b₂) < b₁ * b₂ := by
        rw [hrel]; linarith [mul_comm b₂ b₁]
      nlinarith
  have hhalf₂ : (b₁ < 2 * r₁) ↔ (b₂ < 2 * r₂) := by
    constructor
    · intro hh
      have := mul_lt_mul_of_pos_right hh hb₂
      have hcmp : b₁ * b₂ < 2 * (r₂ * b₁) := by
        rw [← hrel]; linarith [mul_comm b₁ b₂]
      nlinarith
    · intro hh
      have := mul_lt_mul_of_pos_right hh hb₁
      have hcmp : b₁ * b₂ < 2 * (r₁ * b₂) := by
        rw [hrel]; linarith [mul_comm b₂ b₁]
      nlinarith
  rw [roundHalfEven, roundHalfEven]
  simp only [← hq₁, ← hr₁, ← hq₂, ← hr₂, hq12]
  by_cases hc₁ : 2 * r₁ < b₁
  · rw [if_pos hc₁, if_pos (hhalf₁.1 hc₁)]
  · rw [if_neg hc₁, if_neg (fun hc => hc₁ (hhalf₁.2 hc))]
    by_cases hc₂ : b₁ < 2 * r₁
    · rw [if_pos (hhalf₂.1 hc₂), if_pos hc₂]
    · rw [if_neg hc₂, if_neg (fun hc => hc₂ (hhalf₂.2 hc))]

theorem formatFixed4_congr (m₁ : Int) (k₁ : Nat) (m₂ : Int) (k₂ : Nat)
    (h : m₁ * 10 ^ k₂ = m₂ * 10 ^ k₁) : formatFixed4 m₁ k₁ = formatFixed4 m₂ k₂ := by
  have hb₁ : (0 : Int) < 10 ^ k₁ := pow_pos (by norm_num) k₁
  have hb₂ : (0 : Int) < 10 ^ k₂ := pow_pos (by norm_num) k₂
  have hcross : (m₁ * 10 ^ 4) * 10 ^ k₂ = (m₂ * 10 ^ 4) * 10 ^ k₁ := by
    linear_combination (10 : Int) ^ 4 * h
  have hround : roundHalfEven (m₁ * 10 ^ 4) (10 ^ k₁)
      = roundHalfEven (m₂ * 10 ^ 4) (10 ^ k₂) :=
    roundHalfEven_congr _ _ _ _ hb₁ hb₂ hcross
  have hsign : (m₁ < 0) ↔ (m₂ < 0) := by
    constructor
    · intro hm
      nlinarith
    · intro hm
      nlinarith
  rw [formatFixed4, formatFixed4]
  simp only [hround]
  by_cases hm : m₁ < 0
  · rw [if_pos hm, if_pos (hsign.1 hm)]
  · rw [if_neg hm, if_neg (fun hc => hm (hsign.2 hc))]

/-- Sanity check of the modelled canonicalization on the concrete rate of
the specification example. -/
theorem rateStr_eval_example : rateStr (some "1.5") = "1.5000" := by decide

/-- **C7** — fact-identity derivation is deterministic and number-format
insensitive: (i) equal field values give equal UIDs for any digest
function, (ii) two rate strings denoting the same number are canonicalized
to the same 4-decimal form, so the UID agrees, and (iii) a null identity
field canonicalizes to the empty string (an all-null struct hashes the
pure-delimiter message). -/
theorem fact_uid_deterministic_canonical :
    (∀ (h : String → String) (s₁ s₂ : FactStruct), s₁ = s₂ →
        factUidFromStruct h s₁ = factUidFromStruct h s₂)
      ∧ (∀ (h : String → String) (s : FactStruct) (r₁ r₂ : String)
          (m₁ : Int) (k₁ : Nat) (m₂ : Int) (k₂ : Nat),
          parseDecimal r₁ = some (m₁, k₁) → parseDecimal r₂ = some (m₂, k₂) →
          m₁ * 10 ^ k₂ = m₂ * 10 ^ k₁ →
          factUidFromStruct h { s with negotiated_rate := some r₁ }
            = factUidFromStruct h { s with negotiated_rate := some r₂ })
      ∧ coField none = ""
      ∧ factUidMessage ⟨none, none, none, none, none, none, none, none, none,
          none, none, none, none⟩ = "||||||||||||" := by
  refine ⟨fun h s₁ s₂ he => by rw [he], ?_, rfl, by decide⟩
  intro h s r₁ r₂ m₁ k₁ m₂ k₂ hp₁ hp₂ hcross
  have hr : rateStr (some r₁) = rateStr (some r₂) := by
    rw [rateStr, rateStr, hp₁, hp₂]
    exact formatFixed4_congr m₁ k₁ m₂ k₂ hcross
  rw [factUidFromStruct, factUidFromStruct, factUidMessage, factUidMessage]
  simp only [hr]

/-- Witness for C7: the rates `1.5` and `1.50` yield the same UID. -/
theorem fact_uid_deterministic_canonical_witness :
    factUidFromStruct (fun s => s)
        { state := none, year_month := none, payer_slug := none,
          billing_class := none, code_type := none, code := none,
          pg_uid := none, pos_set_id := none, negotiated_type := none,
          negotiation_arrangement := none, expiration_date := none,
          negotiated_rate := some "1.5", provider_group_id_raw := none }
      = factUidFromStruct (fun s => s)
        { state := none, year_month := none, payer_slug := none,
          billing_class := none, code_type := none, code := none,
          pg_uid := none, pos_set_id := none, negotiated_type := none,
          negotiation_arrangement := none, expiration_date := none,
          negotiated_rate := some "1.50", provider_group_id_raw := none } :=
  fact_uid_deterministic_canonical.2.1 (fun s => s)
    { state := none, year_month := none, payer_slug := none,
      billing_class := none, code_type := none, code := none,
      pg_uid := none, pos_set_id := none, negotiated_type := none,
      negotiation_arrangement := none, expiration_date := none,
      negotiated_rate := none, provider_group_id_raw := none }
    "1.5" "1.50" 15 1 150 2 (by decide) (by decide) (by decide)

theorem string_data_inj {s t : String} (h : s.data = t.data) : s = t := by
  cases s
  cases t
  exact congrArg String.mk h

theorem string_append_left_cancel (a : String) {b c : String}
    (h : a ++ b = a ++ c) : b = c := by
  have hd := congrArg String.data h
  simp only [String.data_append] at hd
  exact string_data_inj (List.append_cancel_left hd)

theorem slash_mem_of_replChar (c d : Char) (hd : d ≠ '/') (s : String)
    (h : '/' ∈ (replChar c d s).data) : '/' ∈ s.data ∧ '/' ≠ c := by
  rcases List.mem_map.1 h with ⟨y, hy, hyx⟩
  by_cases hc : y = c
  · rw [if_pos hc] at hyx
    exact absurd hyx hd
  · rw [if_neg hc] at hyx
    subst hyx
    exact ⟨hy, hc⟩

theorem sanitizeS3_noSlash (s : String) : '/' ∉ (sanitizeS3 s).data := by
  intro h
  have h1 := slash_mem_of_replChar ' ' '_' (by decide) _ h
  have h2 := slash_mem_of_replChar '\\' '_' (by decide) _ h1.1
  have h3 := slash_mem_of_replChar '/' '_' (by decide) _ h2.1
  exact h3.2 rfl

theorem s3Value_noSlash (v : Option String) : '/' ∉ (s3Value v).data :=
  sanitizeS3_noSlash _

theorem append_slash_inj (a b u v : List Char) (ha : '/' ∉ a) (hb : '/' ∉ b)
    (h : a ++ '/' :: u = b ++ '/' :: v) : a = b ∧ u = v := by
  induction a generalizing b with
  | nil =>
      cases b with
      | nil => simpa using h
      | cons y ys =>
          rw [List.nil_append, List.cons_append] at h
          injection h with h1 h2
          exact absurd (by rw [h1]; exact List.mem_cons_self y ys) hb
  | cons x xs ih =>
      cases b with
      | nil =>
          rw [List.cons_append, List.nil_append] at h
          injection h with h1 h2
          exact absurd (by rw [← h1]; exact List.mem_cons_self x xs) ha
      | cons y ys =>
          rw [List.cons_append, List.cons_append] at h
          injection h with h1 h2
          have hres := ih ys (fun hm => ha (List.mem_cons_of_mem _ hm))
            (fun hm => hb (List.mem_cons_of_mem _ hm)) h2
          exact ⟨by rw [h1, hres.1], hres.2⟩

theorem pyJoin_slash_inj (l₁ l₂ : List String) (hlen : l₁.length = l₂.length)
    (h₁ : ∀ s ∈ l₁, '/' ∉ s.data) (h₂ : ∀ s ∈ l₂, '/' ∉ s.data)
    (h : pyJoin "/" l₁ = pyJoin "/" l₂) : l₁ = l₂ := by
  induction l₁ generalizing l₂ with
  | nil =>
      cases l₂ with
      | nil => rfl
      | cons b t => simp at hlen
  | cons a t₁ ih =>
      cases l₂ with
      | nil => simp at hlen
      | cons b t₂ =>
          cases t₁ with
          | nil =>
              cases t₂ with
              | nil =>
                  have hab : a = b := h
                  rw [hab]
              | cons d t₂' => simp at hlen
          | cons c t₁' =>
              cases t₂ with
              | nil => simp at hlen
              | cons d t₂' =>
                  have hd := congrArg String.data h
                  have hslash : ("/" : String).data = ['/'] := rfl
                  simp only [pyJoin, String.data_append, hslash,
                    List.append_assoc, List.singleton_append] at hd
                  have hsplit := append_slash_inj a.data b.data
                    (pyJoin "/" (c :: t₁')).data (pyJoin "/" (d :: t₂')).data
                    (h₁ a (List.mem_cons_self _ _))
                    (h₂ b (List.mem_cons_self _ _)) hd
                  have hab : a = b := string_data_inj hsplit.1
                  have htail := ih (d :: t₂') (by simpa using hlen)
                    (fun s hs => h₁ s (List.mem_cons_of_mem _ hs))
                    (fun s hs => h₂ s (List.mem_cons_of_mem _ hs))
                    (string_data_inj hsplit.2)
                  rw [hab, htail]

theorem append_noSlash (a b : String) (ha : '/' ∉ a.data) (hb : '/' ∉ b.data) :
    '/' ∉ (a ++ b).data := by
  rw [String.data_append]
  intro hm
  rcases List.mem_append.1 hm with hx | hx
  · exact ha hx
  · exact hb hx

theorem s3PartitionGet_payer_slug (k : S3PartitionKey) :
    s3PartitionGet k "payer_slug" = k.payer_slug := by
  simp [s3PartitionGet]

theorem s3PartitionGet_state (k : S3PartitionKey) :
    s3PartitionGet k "state" = k.state := by
  simp [s3PartitionGet]

theorem s3PartitionGet_billing_class (k : S3PartitionKey) :
    s3PartitionGet k "billing_class" = k.billing_class := by
  simp [s3PartitionGet]

theorem s3PartitionGet_procedure_set (k : S3PartitionKey) :
    s3PartitionGet k "procedure_set" = k.procedure_set := by
  simp [s3PartitionGet]

theorem s3PartitionGet_procedure_class (k : S3PartitionKey) :
    s3PartitionGet k "procedure_class" = k.procedure_class := by
  simp [s3PartitionGet]

theorem s3PartitionGet_taxonomy (k : S3PartitionKey) :
    s3PartitionGet k "taxonomy" = none := by
  simp [s3PartitionGet]

theorem s3PartitionGet_stat_area_name (k : S3PartitionKey) :
    s3PartitionGet k "stat_area_name" = k.stat_area_name := by
  simp [s3PartitionGet]

/-- **C4 (amended)** — `create_s3_path` is a pure function of its inputs,
but it is entirely insensitive to the `primary_taxonomy_code` partition
field: the encoder reads the dims-list key `taxonomy`, which the
pipeline's partition row (keyed `primary_taxonomy_code`) never holds, so
every path carries `taxonomy=null` and keys differing only in that field
always collide.  Over the remaining fields, two keys map to the same path
exactly when their sanitized encodings agree (`/`, `\`, space replaced by
`_`, null encoded as "null", month zero-padded); year and month are
emitted unsanitized, so they are assumed slash-free. -/
theorem create_s3_path_pure_inj (bucket pfx : String) (k₁ k₂ : S3PartitionKey)
    (hy₁ : '/' ∉ k₁.year.data) (hy₂ : '/' ∉ k₂.year.data)
    (hm₁ : '/' ∉ (zfill2 k₁.month).data) (hm₂ : '/' ∉ (zfill2 k₂.month).data) :
    (∀ v : Option String,
        createS3Path bucket { k₁ with primary_taxonomy_code := v } pfx
          = createS3Path bucket k₁ pfx)
      ∧ (createS3Path bucket k₁ pfx = createS3Path bucket k₂ pfx ↔
          (s3Value k₁.payer_slug = s3Value k₂.payer_slug
            ∧ s3Value k₁.state = s3Value k₂.state
            ∧ s3Value k₁.billing_class = s3Value k₂.billing_class
            ∧ s3Value k₁.procedure_set = s3Value k₂.procedure_set
            ∧ s3Value k₁.procedure_class = s3Value k₂.procedure_class
            ∧ s3Value k₁.stat_area_name = s3Value k₂.stat_area_name
            ∧ k₁.year = k₂.year
            ∧ zfill2 k₁.month = zfill2 k₂.month)) := by
  constructor
  · intro v
    rw [createS3Path, createS3Path, createS3PathParts, createS3PathParts]
    simp only [s3PartitionGet_payer_slug, s3PartitionGet_state,
      s3PartitionGet_billing_class, s3PartitionGet_procedure_set,
      s3PartitionGet_procedure_class, s3PartitionGet_taxonomy,
      s3PartitionGet_stat_area_name]
  · constructor
    · intro h
      have hj : pyJoin "/" (createS3PathParts k₁ pfx)
          = pyJoin "/" (createS3PathParts k₂ pfx) := by
        have hd := congrArg String.data h
        simp only [createS3Path, String.data_append, List.append_assoc] at hd
        have hd1 := List.append_cancel_left hd
        have hd2 := List.append_cancel_left hd1
        have hd3 := List.append_cancel_left hd2
        exact string_data_inj (List.append_cancel_right hd3)
      rw [createS3PathParts, createS3PathParts] at hj
      have hj2 : pyJoin "/"
          ["payer_slug=" ++ s3Value (s3PartitionGet k₁ "payer_slug"),
           "state=" ++ s3Value (s3PartitionGet k₁ "state"),
           "billing_class=" ++ s3Value (s3PartitionGet k₁ "billing_class"),
           "procedure_set=" ++ s3Value (s3PartitionGet k₁ "procedure_set"),
           "procedure_class=" ++ s3Value (s3PartitionGet k₁ "procedure_class"),
           "taxonomy=" ++ s3Value (s3PartitionGet k₁ "taxonomy"),
           "stat_area_name=" ++ s3Value (s3PartitionGet k₁ "stat_area_name"),
           "year=" ++ k₁.year,
           "month=" ++ zfill2 k₁.month]
          = pyJoin "/"
          ["payer_slug=" ++ s3Value (s3PartitionGet k₂ "payer_slug"),
           "state=" ++ s3Value (s3PartitionGet k₂ "state"),
           "billing_class=" ++ s3Value (s3PartitionGet k₂ "billing_class"),
           "procedure_set=" ++ s3Value (s3PartitionGet k₂ "procedure_set"),
           "procedure_class=" ++ s3Value (s3PartitionGet k₂ "procedure_class"),
           "taxonomy=" ++ s3Value (s3PartitionGet k₂ "taxonomy"),
           "stat_area_name=" ++ s3Value (s3PartitionGet k₂ "stat_area_name"),
           "year=" ++ k₂.year,
           "month=" ++ zfill2 k₂.month] :=
        string_append_left_cancel (pfx ++ "/") hj
      have hlist := pyJoin_slash_inj
        ["payer_slug=" ++ s3Value (s3PartitionGet k₁ "payer_slug"),
         "state=" ++ s3Value (s3PartitionGet k₁ "state"),
         "billing_class=" ++ s3Value (s3PartitionGet k₁ "billing_class"),
         "procedure_set=" ++ s3Value (s3PartitionGet k₁ "procedure_set"),
         "procedure_class=" ++ s3Value (s3PartitionGet k₁ "procedure_class"),
         "taxonomy=" ++ s3Value (s3PartitionGet k₁ "taxonomy"),
         "stat_area_name=" ++ s3Value (s3PartitionGet k₁ "stat_area_name"),
         "year=" ++ k₁.year,
         "month=" ++ zfill2 k₁.month]
        ["payer_slug=" ++ s3Value (s3PartitionGet k₂ "payer_slug"),
         "state=" ++ s3Value (s3PartitionGet k₂ "state"),
         "billing_class=" ++ s3Value (s3PartitionGet k₂ "billing_class"),
         "procedure_set=" ++ s3Value (s3PartitionGet k₂ "procedure_set"),
         "procedure_class=" ++ s3Value (s3PartitionGet k₂ "procedure_class"),
         "taxonomy=" ++ s3Value (s3PartitionGet k₂ "taxonomy"),
         "stat_area_name=" ++ s3Value (s3PartitionGet k₂ "stat_area_name"),
         "year=" ++ k₂.year,
         "month=" ++ zfill2 k₂.month]
        rfl
        (by
          intro s hs
          simp only [List.mem_cons, List.not_mem_nil, or_false] at hs
          rcases hs with rfl | rfl | rfl | rfl | rfl | rfl | rfl | rfl | rfl
          · exact append_noSlash _ _ (by decide) (s3Value_noSlash _)
          · exact append_noSlash _ _ (by decide) (s3Value_noSlash _)
          · exact append_noSlash _ _ (by decide) (s3Value_noSlash _)
          · exact append_noSlash _ _ (by decide) (s3Value_noSlash _)
          · exact append_noSlash _ _ (by decide) (s3Value_noSlash _)
          · exact append_noSlash _ _ (by decide) (s3Value_noSlash _)
          · exact append_noSlash _ _ (by decide) (s3Value_noSlash _)
          · exact append_noSlash _ _ (by decide) hy₁
          · exact append_noSlash _ _ (by decide) hm₁)
        (by
          intro s hs
          simp only [List.mem_cons, List.not_mem_nil, or_false] at hs
          rcases hs with rfl | rfl | rfl | rfl | rfl | rfl | rfl | rfl | rfl
          · exact append_noSlash _ _ (by decide) (s3Value_noSlash _)
          · exact append_noSlash _ _ (by decide) (s3Value_noSlash _)
          · exact append_noSlash _ _ (by decide) (s3Value_noSlash _)
          · exact append_noSlash _ _ (by decide) (s3Value_noSlash _)
          · exact append_noSlash _ _ (by decide) (s3Value_noSlash _)
          · exact append_noSlash _ _ (by decide) (s3Value_noSlash _)
          · exact append_noSlash _ _ (by decide) (s3Value_noSlash _)
          · exact append_noSlash _ _ (by decide) hy₂
          · exact append_noSlash _ _ (by decide) hm₂)
        hj2
      simp only [List.cons.injEq, and_true] at hlist
      obtain ⟨e1, e2, e3, e4, e5, e6, e7, e8, e9⟩ := hlist
      have c1 := string_append_left_cancel "payer_slug=" e1
      have c2 := string_append_left_cancel "state=" e2
      have c3 := string_append_left_cancel "billing_class=" e3
      have c4 := string_append_left_cancel "procedure_set=" e4
      have c5 := string_append_left_cancel "procedure_class=" e5
      have c7 := string_append_left_cancel "stat_area_name=" e7
      have c8 := string_append_left_cancel "year=" e8
      have c9 := string_append_left_cancel "month=" e9
      simp only [s3PartitionGet_payer_slug] at c1
      simp only [s3PartitionGet_state] at c2
      simp only [s3PartitionGet_billing_class] at c3
      simp only [s3PartitionGet_procedure_set] at c4
      simp only [s3PartitionGet_procedure_class] at c5
      simp only [s3PartitionGet_stat_area_name] at c7
      exact ⟨c1, c2, c3, c4, c5, c7, c8, c9⟩
    · rintro ⟨e1, e2, e3, e4, e5, e6, e7, e8⟩
      rw [createS3Path, createS3Path, createS3PathParts, createS3PathParts]
      simp only [s3PartitionGet_payer_slug, s3PartitionGet_state,
        s3PartitionGet_billing_class, s3PartitionGet_procedure_set,
        s3PartitionGet_procedure_class, s3PartitionGet_taxonomy,
        s3PartitionGet_stat_area_name]
      rw [e1, e2, e3, e4, e5, e6, e7, e8]

set_option maxRecDepth 8000 in
/-- **C4 counterexample** — two collision classes: partition keys that
differ only in `primary_taxonomy_code` collide because the encoder reads
the absent dict key `taxonomy` (every path carries `taxonomy=null`), and
keys whose state fields are `"a b"` versus `"a_b"` collide because
sanitization maps both to `"a_b"`. -/
theorem create_s3_path_collision_cex :
    (({ payer_slug := some "aetna", state := some "GA",
        billing_class := some "professional", procedure_set := some "Surgery",
        procedure_class := some "CPT", primary_taxonomy_code := some "207Q00000X",
        stat_area_name := some "Atlanta", year := "2024", month := "05" }
          : S3PartitionKey)
        ≠ { payer_slug := some "aetna", state := some "GA",
            billing_class := some "professional", procedure_set := some "Surgery",
            procedure_class := some "CPT", primary_taxonomy_code := some "208D00000X",
            stat_area_name := some "Atlanta", year := "2024", month := "05" }
      ∧ createS3Path "bkt"
          { payer_slug := some "aetna", state := some "GA",
            billing_class := some "professional", procedure_set := some "Surgery",
            procedure_class := some "CPT", primary_taxonomy_code := some "207Q00000X",
            stat_area_name := some "Atlanta", year := "2024", month := "05" }
          "partitioned-data"
        = createS3Path "bkt"
          { payer_slug := some "aetna", state := some "GA",
            billing_class := some "professional", procedure_set := some "Surgery",
            procedure_class := some "CPT", primary_taxonomy_code := some "208D00000X",
            stat_area_name := some "Atlanta", year := "2024", month := "05" }
          "partitioned-data")
    ∧ (({ payer_slug := some "aetna", state := some "a b",
          billing_class := some "professional", procedure_set := some "Surgery",
          procedure_class := some "CPT", primary_taxonomy_code := none,
          stat_area_name := some "Atlanta", year := "2024", month := "05" }
            : S3PartitionKey)
        ≠ { payer_slug := some "aetna", state := some "a_b",
            billing_class := some "professional", procedure_set := some "Surgery",
            procedure_class := some "CPT", primary_taxonomy_code := none,
            stat_area_name := some "Atlanta", year := "2024", month := "05" }
      ∧ createS3Path "bkt"
          { payer_slug := some "aetna", state := some "a b",
            billing_class := some "professional", procedure_set := some "Surgery",
            procedure_class := some "CPT", primary_taxonomy_code := none,
            stat_area_name := some "Atlanta", year := "2024", month := "05" }
          "partitioned-data"
        = createS3Path "bkt"
          { payer_slug := some "aetna", state := some "a_b",
            billing_class := some "professional", procedure_set := some "Surgery",
            procedure_class := some "CPT", primary_taxonomy_code := none,
            stat_area_name := some "Atlanta", year := "2024", month := "05" }
          "partitioned-data") := by
  exact ⟨⟨by decide, by decide⟩, ⟨by decide, by decide⟩⟩

/-- Witness for the amended C4: keys with sanitization-distinct states get
distinct paths. -/
theorem create_s3_path_pure_inj_witness :
    createS3Path "bkt"
        { payer_slug := some "aetna", state := some "CA",
          billing_class := none, procedure_set := none, procedure_class := none,
          primary_taxonomy_code := none, stat_area_name := none,
          year := "2024", month := "5" }
        "pfx"
      ≠ createS3Path "bkt"
        { payer_slug := some "aetna", state := some "NY",
          billing_class := none, procedure_set := none, procedure_class := none,
          primary_taxonomy_code := none, stat_area_name := none,
          year := "2024", month := "5" }
        "pfx" := fun hEq =>
  absurd
    ((((create_s3_path_pure_inj "bkt" "pfx"
      { payer_slug := some "aetna", state := some "CA",
        billing_class := none, procedure_set := none, procedure_class := none,
        primary_taxonomy_code := none, stat_area_name := none,
        year := "2024", month := "5" }
      { payer_slug := some "aetna", state := some "NY",
        billing_class := none, procedure_set := none, procedure_class := none,
        primary_taxonomy_code := none, stat_area_name := none,
        year := "2024", month := "5" }
      (by decide) (by decide) (by decide) (by decide)).2).1 hEq).2.1)
    (by decide)

theorem lookup_append (r l : DRow) (c : String) :
    (r ++ l).lookup c
      = match r.lookup c with
        | some v => some v
        | none => l.lookup c := by
  induction r with
  | nil => simp [List.lookup]
  | cons p t ih =>
      obtain ⟨a, b⟩ := p
      rw [List.cons_append, List.lookup, List.lookup]
      by_cases hac : c = a
      · rw [show (c == a) = true from beq_iff_eq.2 hac]
      · rw [show (c == a) = false from beq_eq_false_iff_ne.2 hac]
        exact ih

theorem lookup_mapReplace (r : DRow) (c : String) (v : Option String)
    (h : (r.lookup c).isSome) :
    (r.map (fun p => if p.1 = c then (c, v) else p)).lookup c = some v := by
  induction r with
  | nil => simp [List.lookup] at h
  | cons p t ih =>
      obtain ⟨a, b⟩ := p
      rw [List.map_cons]
      by_cases hac : a = c
      · subst hac
        rw [show (if ((a, b) : String × Option String).1 = a then (a, v) else (a, b)) = (a, v) from if_pos rfl]
        rw [List.lookup, show (a == a) = true from beq_self_eq_true a]
      · rw [show (if ((a, b) : String × Option String).1 = c then (c, v) else (a, b)) = (a, b) from if_neg hac]
        rw [List.lookup] at h
        rw [List.lookup]
        rw [show (c == a) = false from beq_eq_false_iff_ne.2 (fun hx => hac hx.symm)] at h ⊢
        exact ih h

theorem lookup_mapReplace_ne (r : DRow) (c c' : String) (v : Option String)
    (h : c' ≠ c) :
    (r.map (fun p => if p.1 = c then (c, v) else p)).lookup c' = r.lookup c' := by
  induction r with
  | nil => simp
  | cons p t ih =>
      obtain ⟨a, b⟩ := p
      rw [List.map_cons]
      by_cases hac : a = c
      · subst hac
        rw [show (if ((a, b) : String × Option String).1 = a then (a, v) else (a, b)) = (a, v) from if_pos rfl]
        rw [List.lookup, List.lookup]
        rw [show (c' == a) = false from beq_eq_false_iff_ne.2 h]
        exact ih
      · rw [show (if ((a, b) : String × Option String).1 = c then (c, v) else (a, b)) = (a, b) from if_neg hac]
        rw [List.lookup, List.lookup]
        by_cases hca : c' = a
        · rw [show (c' == a) = true from beq_iff_eq.2 hca]
        · rw [show (c' == a) = false from beq_eq_false_iff_ne.2 hca]
          exact ih

theorem rowCell_setCol_self (r : DRow) (c : String) (v : Option String) :
    rowCell (setCol r c v) c = v := by
  rw [setCol]
  by_cases h : (r.lookup c).isSome
  · rw [if_pos h, rowCell, lookup_mapReplace r c v h]
    rfl
  · rw [if_neg h, rowCell, lookup_append]
    rw [Option.not_isSome_iff_eq_none.1 h]
    simp [List.lookup]

theorem rowCell_setCol_ne (r : DRow) (c c' : String) (v : Option String)
    (h : c' ≠ c) : rowCell (setCol r c v) c' = rowCell r c' := by
  rw [setCol]
  by_cases hs : (r.lookup c).isSome
  · rw [if_pos hs, rowCell, lookup_mapReplace_ne r c c' v h, rowCell]
  · rw [if_neg hs, rowCell, lookup_append]
    cases hl : r.lookup c' with
    | some w => rw [rowCell, hl]
    | none =>
        rw [rowCell, hl]
        simp [List.lookup, show (c' == c) = false from beq_eq_false_iff_ne.2 h]

theorem sentinelizeCell_isSome (v : Option String) :
    (sentinelizeCell v).isSome := by
  cases v <;> rfl

theorem yearCell_isSome (v : Option String) : (yearCell v).isSome := by
  cases v <;> rfl

theorem monthCell_isSome (v : Option String) : (monthCell v).isSome := by
  cases v <;> rfl

theorem rowCell_sentStep_self (srcCol dstCol : String) (cols : List String)
    (r : DRow) :
    rowCell (sentStep srcCol dstCol cols r) dstCol
      = if srcCol ∈ cols then sentinelizeCell (rowCell r srcCol)
        else some "__NULL__" := by
  rw [sentStep]
  split
  · rw [rowCell_setCol_self]
  · rw [rowCell_setCol_self]

theorem rowCell_sentStep_other (srcCol dstCol : String) (cols : List String)
    (r : DRow) (c : String) (h : c ≠ dstCol) :
    rowCell (sentStep srcCol dstCol cols r) c = rowCell r c := by
  rw [sentStep]
  split
  · exact rowCell_setCol_ne _ _ _ _ h
  · exact rowCell_setCol_ne _ _ _ _ h

theorem rowCell_stateStep_self (cols : List String) (r : DRow) :
    rowCell (stateStep cols r) "state"
      = if "state_geo" ∈ cols then sentinelizeCell (rowCell r "state_geo")
        else if "state" ∈ cols then sentinelizeCell (rowCell r "state")
        else some "__NULL__" := by
  rw [stateStep]
  split
  · rw [rowCell_setCol_self]
  · split
    · rw [rowCell_setCol_self]
    · rw [rowCell_setCol_self]

theorem rowCell_stateStep_other (cols : List String) (r : DRow) (c : String)
    (h : c ≠ "state") :
    rowCell (stateStep cols r) c = rowCell r c := by
  rw [stateStep]
  split
  · exact rowCell_setCol_ne _ _ _ _ h
  · split
    · exact rowCell_setCol_ne _ _ _ _ h
    · exact rowCell_setCol_ne _ _ _ _ h

theorem rowCell_yearMonthStep_year (cols : List String) (r : DRow) :
    rowCell (yearMonthStep cols r) "year"
      = if "year_month" ∈ cols then yearCell (rowCell r "year_month")
        else some "__NULL__" := by
  rw [yearMonthStep]
  split
  · rw [rowCell_setCol_ne _ _ _ _ (by decide), rowCell_setCol_self]
  · rw [rowCell_setCol_ne _ _ _ _ (by decide), rowCell_setCol_self]

theorem rowCell_yearMonthStep_month (cols : List String) (r : DRow) :
    rowCell (yearMonthStep cols r) "month"
      = if "year_month" ∈ cols then monthCell (rowCell r "year_month")
        else some "__NULL__" := by
  rw [yearMonthStep]
  split
  · rw [rowCell_setCol_self]
  · rw [rowCell_setCol_self]

theorem rowCell_yearMonthStep_other (cols : List String) (r : DRow)
    (c : String) (h₁ : c ≠ "year") (h₂ : c ≠ "month") :
    rowCell (yearMonthStep cols r) c = rowCell r c := by
  rw [yearMonthStep]
  split
  · rw [rowCell_setCol_ne _ _ _ _ h₂, rowCell_setCol_ne _ _ _ _ h₁]
  · rw [rowCell_setCol_ne _ _ _ _ h₂, rowCell_setCol_ne _ _ _ _ h₁]

theorem extractRow_isSome (cols : List String) (r : DRow) (c : String)
    (hc : c ∈ partitionColumns) :
    (rowCell (extractRow cols r) c).isSome := by
  have hsent : ∀ (s d : String) (cs : List String) (q : DRow),
      (rowCell (sentStep s d cs q) d).isSome := by
    intro s d cs q
    rw [rowCell_sentStep_self]
    split
    · exact sentinelizeCell_isSome _
    · rfl
  simp only [partitionColumns, List.mem_cons, List.not_mem_nil, or_false] at hc
  rcases hc with rfl | rfl | rfl | rfl | rfl | rfl | rfl | rfl | rfl
  · rw [extractRow, rowCell_sentStep_other _ _ _ _ _ (by decide),
      rowCell_sentStep_other _ _ _ _ _ (by decide),
      rowCell_sentStep_other _ _ _ _ _ (by decide),
      rowCell_sentStep_other _ _ _ _ _ (by decide),
      rowCell_sentStep_other _ _ _ _ _ (by decide),
      rowCell_stateStep_other _ _ _ (by decide)]
    exact hsent _ _ _ _
  · rw [extractRow, rowCell_sentStep_other _ _ _ _ _ (by decide),
      rowCell_sentStep_other _ _ _ _ _ (by decide),
      rowCell_sentStep_other _ _ _ _ _ (by decide),
      rowCell_sentStep_other _ _ _ _ _ (by decide),
      rowCell_sentStep_other _ _ _ _ _ (by decide),
      rowCell_stateStep_self]
    split
    · exact sentinelizeCell_isSome _
    · split
      · exact sentinelizeCell_isSome _
      · rfl
  · rw [extractRow, rowCell_sentStep_other _ _ _ _ _ (by decide),
      rowCell_sentStep_other _ _ _ _ _ (by decide),
      rowCell_sentStep_other _ _ _ _ _ (by decide),
      rowCell_sentStep_other _ _ _ _ _ (by decide)]
    exact hsent _ _ _ _
  · rw [extractRow, rowCell_sentStep_other _ _ _ _ _ (by decide),
      rowCell_sentStep_other _ _ _ _ _ (by decide),
      rowCell_sentStep_other _ _ _ _ _ (by decide)]
    exact hsent _ _ _ _
  · rw [extractRow, rowCell_sentStep_other _ _ _ _ _ (by decide),
      rowCell_sentStep_other _ _ _ _ _ (by decide)]
    exact hsent _ _ _ _
  · rw [extractRow, rowCell_sentStep_other _ _ _ _ _ (by decide)]
    exact hsent _ _ _ _
  · rw [extractRow]
    exact hsent _ _ _ _
  · rw [extractRow, rowCell_sentStep_other _ _ _ _ _ (by decide),
      rowCell_sentStep_other _ _ _ _ _ (by decide),
      rowCell_sentStep_other _ _ _ _ _ (by decide),
      rowCell_sentStep_other _ _ _ _ _ (by decide),
      rowCell_sentStep_other _ _ _ _ _ (by decide),
      rowCell_stateStep_other _ _ _ (by decide),
      rowCell_sentStep_other _ _ _ _ _ (by decide),
      rowCell_yearMonthStep_year]
    split
    · exact yearCell_isSome _
    · rfl
  · rw [extractRow, rowCell_sentStep_other _ _ _ _ _ (by decide),
      rowCell_sentStep_other _ _ _ _ _ (by decide),
      rowCell_sentStep_other _ _ _ _ _ (by decide),
      rowCell_sentStep_other _ _ _ _ _ (by decide),
      rowCell_sentStep_other _ _ _ _ _ (by decide),
      rowCell_stateStep_other _ _ _ (by decide),
      rowCell_sentStep_other _ _ _ _ _ (by decide),
      rowCell_yearMonthStep_month]
    split
    · exact monthCell_isSome _
    · rfl

theorem rowCell_of_all_none (r : DRow) (h : ∀ p ∈ r, p.2 = none)
    (c : String) : rowCell r c = none := by
  induction r with
  | nil => rfl
  | cons p t ih =>
      obtain ⟨a, b⟩ := p
      rw [rowCell, List.lookup]
      by_cases hca : c = a
      · rw [show (c == a) = true from beq_iff_eq.2 hca]
        exact h (a, b) (List.mem_cons_self _ _)
      · rw [show (c == a) = false from beq_eq_false_iff_ne.2 hca]
        exact ih fun p hp => h p (List.mem_cons_of_mem _ hp)

theorem extractRow_all_none_sentinel (cols : List String) (r : DRow)
    (h : ∀ p ∈ r, p.2 = none) (c : String) (hc : c ∈ partitionColumns) :
    rowCell (extractRow cols r) c = some "__NULL__" := by
  have haux : ∀ x, rowCell r x = none := rowCell_of_all_none r h
  simp only [partitionColumns, List.mem_cons, List.not_mem_nil, or_false] at hc
  rcases hc with rfl | rfl | rfl | rfl | rfl | rfl | rfl | rfl | rfl
  · rw [extractRow, rowCell_sentStep_other _ _ _ _ _ (by decide),
      rowCell_sentStep_other _ _ _ _ _ (by decide),
      rowCell_sentStep_other _ _ _ _ _ (by decide),
      rowCell_sentStep_other _ _ _ _ _ (by decide),
      rowCell_sentStep_other _ _ _ _ _ (by decide),
      rowCell_stateStep_other _ _ _ (by decide),
      rowCell_sentStep_self]
    split
    · rw [rowCell_yearMonthStep_other _ _ _ (by decide) (by decide), haux]
      rfl
    · rfl
  · rw [extractRow, rowCell_sentStep_other _ _ _ _ _ (by decide),
      rowCell_sentStep_other _ _ _ _ _ (by decide),
      rowCell_sentStep_other _ _ _ _ _ (by decide),
      rowCell_sentStep_other _ _ _ _ _ (by decide),
      rowCell_sentStep_other _ _ _ _ _ (by decide),
      rowCell_stateStep_self]
    split
    · rw [rowCell_sentStep_other _ _ _ _ _ (by decide),
        rowCell_yearMonthStep_other _ _ _ (by decide) (by decide), haux]
      rfl
    · split
      · rw [rowCell_sentStep_other _ _ _ _ _ (by decide),
          rowCell_yearMonthStep_other _ _ _ (by decide) (by decide), haux]
        rfl
      · rfl
  · rw [extractRow, rowCell_sentStep_other _ _ _ _ _ (by decide),
      rowCell_sentStep_other _ _ _ _ _ (by decide),
      rowCell_sentStep_other _ _ _ _ _ (by decide),
      rowCell_sentStep_other _ _ _ _ _ (by decide),
      rowCell_sentStep_self]
    split
    · rw [rowCell_stateStep_other _ _ _ (by decide),
        rowCell_sentStep_other _ _ _ _ _ (by decide),
        rowCell_yearMonthStep_other _ _ _ (by decide) (by decide), haux]
      rfl
    · rfl
  · rw [extractRow, rowCell_sentStep_other _ _ _ _ _ (by decide),
      rowCell_sentStep_other _ _ _ _ _ (by decide),
      rowCell_sentStep_other _ _ _ _ _ (by decide),
      rowCell_sentStep_self]
    split
    · rw [rowCell_sentStep_other _ _ _ _ _ (by decide),
        rowCell_stateStep_other _ _ _ (by decide),
        rowCell_sentStep_other _ _ _ _ _ (by decide),
        rowCell_yearMonthStep_other _ _ _ (by decide) (by decide), haux]
      rfl
    · rfl
  · rw [extractRow, rowCell_sentStep_other _ _ _ _ _ (by decide),
      rowCell_sentStep_other _ _ _ _ _ (by decide),
      rowCell_sentStep_self]
    split
    · rw [rowCell_sentStep_other _ _ _ _ _ (by decide),
        rowCell_sentStep_other _ _ _ _ _ (by decide),
        rowCell_stateStep_other _ _ _ (by decide),
        rowCell_sentStep_other _ _ _ _ _ (by decide),
        rowCell_yearMonthStep_other _ _ _ (by decide) (by decide), haux]
      rfl
    · rfl
  · rw [extractRow, rowCell_sentStep_other _ _ _ _ _ (by decide),
      rowCell_sentStep_self]
    split
    · rw [rowCell_sentStep_other _ _ _ _ _ (by decide),
        rowCell_sentStep_other _ _ _ _ _ (by decide),
        rowCell_sentStep_other _ _ _ _ _ (by decide),
        rowCell_stateStep_other _ _ _ (by decide),
        rowCell_sentStep_other _ _ _ _ _ (by decide),
        rowCell_yearMonthStep_other _ _ _ (by decide) (by decide), haux]
      rfl
    · rfl
  · rw [extractRow, rowCell_sentStep_self]
    split
    · rw [rowCell_sentStep_other _ _ _ _ _ (by decide),
        rowCell_sentStep_other _ _ _ _ _ (by decide),
        rowCell_sentStep_other _ _ _ _ _ (by decide),
        rowCell_sentStep_other _ _ _ _ _ (by decide),
        rowCell_stateStep_other _ _ _ (by decide),
        rowCell_sentStep_other _ _ _ _ _ (by decide),
        rowCell_yearMonthStep_other _ _ _ (by decide) (by decide), haux]
      rfl
    · rfl
  · rw [extractRow, rowCell_sentStep_other _ _ _ _ _ (by decide),
      rowCell_sentStep_other _ _ _ _ _ (by decide),
      rowCell_sentStep_other _ _ _ _ _ (by decide),
      rowCell_sentStep_other _ _ _ _ _ (by decide),
      rowCell_sentStep_other _ _ _ _ _ (by decide),
      rowCell_stateStep_other _ _ _ (by decide),
      rowCell_sentStep_other _ _ _ _ _ (by decide),
      rowCell_yearMonthStep_year]
    split
    · rw [haux]
      rfl
    · rfl
  · rw [extractRow, rowCell_sentStep_other _ _ _ _ _ (by decide),
      rowCell_sentStep_other _ _ _ _ _ (by decide),
      rowCell_sentStep_other _ _ _ _ _ (by decide),
      rowCell_sentStep_other _ _ _ _ _ (by decide),
      rowCell_sentStep_other _ _ _ _ _ (by decide),
      rowCell_stateStep_other _ _ _ (by decide),
      rowCell_sentStep_other _ _ _ _ _ (by decide),
      rowCell_yearMonthStep_month]
    split
    · rw [haux]
      rfl
    · rfl

theorem extractRowFallback_isSome (r : DRow) (c : String)
    (hc : c ∈ partitionColumns) :
    (rowCell (extractRowFallback r) c).isSome := by
  simp only [partitionColumns, List.mem_cons, List.not_mem_nil, or_false] at hc
  rcases hc with rfl | rfl | rfl | rfl | rfl | rfl | rfl | rfl | rfl <;>
    rw [extractRowFallback] <;>
    first
    | rw [rowCell_setCol_self]; rfl
    | (repeat rw [rowCell_setCol_ne _ _ _ _ (by decide)]); rw [rowCell_setCol_self]; rfl

/-- **C3** — partition-key resolution is total and sentinel-complete:
whatever branch `extract_partition_keys` takes (its except handler
included), every row of its output carries a non-null value in every
partition column, and a record whose cells are all null resolves to the
sentinel `__NULL__` in every partition column. -/
theorem extract_partition_keys_total :
    (∀ (raises : Bool) (f : Frame), ∀ r ∈ (extractPartitionKeys raises f).rows,
        ∀ c ∈ partitionColumns, (rowCell r c).isSome)
      ∧ (∀ (cols : List String) (r : DRow), (∀ p ∈ r, p.2 = none) →
          ∀ c ∈ partitionColumns,
            rowCell (extractRow cols r) c = some "__NULL__") := by
  constructor
  · intro raises f r hr c hc
    rw [extractPartitionKeys] at hr
    cases raises with
    | true =>
        have hr2 : r ∈ f.rows.map extractRowFallback := by simpa using hr
        obtain ⟨r0, _, rfl⟩ := List.mem_map.1 hr2
        exact extractRowFallback_isSome r0 c hc
    | false =>
        have hr2 : r ∈ f.rows.map (extractRow f.cols) := by simpa using hr
        obtain ⟨r0, _, rfl⟩ := List.mem_map.1 hr2
        exact extractRow_isSome f.cols r0 c hc
  · exact extractRow_all_none_sentinel

/-- Witness for C3 on a one-column, one-row frame whose only cell is
null. -/
theorem extract_partition_keys_total_witness :
    (rowCell (extractRow ["payer_slug"] [("payer_slug", none)]) "state").isSome
      ∧ rowCell (extractRow ["payer_slug"] [("payer_slug", none)]) "payer_slug"
          = some "__NULL__" :=
  ⟨extract_partition_keys_total.1 false
      { cols := ["payer_slug"], rows := [[("payer_slug", none)]] }
      (extractRow ["payer_slug"] [("payer_slug", none)]) (by decide)
      "state" (by decide),
   extract_partition_keys_total.2 ["payer_slug"] [("payer_slug", none)]
      (by decide) "payer_slug" (by decide)⟩

/-- **C8 counterexample** — one record in which `payer_slug` is a null
fact-side value ("legitimately absent") and `proc_set` is a null join
result ("missing due to a join miss"): the resolver writes the same
reserved value `__NULL__` for both, so the two cases are not encoded by
two distinct sentinels. -/
theorem partition_sentinels_not_distinct_cex :
    rowCell (extractRow ["payer_slug", "proc_set"]
        [("payer_slug", none), ("proc_set", none)]) "payer_slug"
      = rowCell (extractRow ["payer_slug", "proc_set"]
        [("payer_slug", none), ("proc_set", none)]) "procedure_set"
    ∧ rowCell (extractRow ["payer_slug", "proc_set"]
        [("payer_slug", none), ("proc_set", none)]) "payer_slug"
      = some "__NULL__" := by
  refine ⟨?_, ?_⟩ <;> decide

/-- **C8 (amended)** — `extract_partition_keys` uses a single reserved
sentinel: a null direct fact value, a null join-produced value and an
entirely missing join column all resolve to the same `__NULL__` (the
second reserved literal `Unknown` is produced only by the legacy
`_add_partitioning_columns` and counted by `validate_partition_data`, not
emitted by the pipeline's key resolution). -/
theorem partition_sentinel_single (cols : List String) (r : DRow) :
    ("payer_slug" ∈ cols → rowCell r "payer_slug" = none →
        rowCell (extractRow cols r) "payer_slug" = some "__NULL__")
      ∧ ("proc_set" ∈ cols → rowCell r "proc_set" = none →
        rowCell (extractRow cols r) "procedure_set" = some "__NULL__")
      ∧ ("proc_set" ∉ cols →
        rowCell (extractRow cols r) "procedure_set" = some "__NULL__") := by
  refine ⟨?_, ?_, ?_⟩
  · intro hin hnull
    rw [extractRow, rowCell_sentStep_other _ _ _ _ _ (by decide),
      rowCell_sentStep_other _ _ _ _ _ (by decide),
      rowCell_sentStep_other _ _ _ _ _ (by decide),
      rowCell_sentStep_other _ _ _ _ _ (by decide),
      rowCell_sentStep_other _ _ _ _ _ (by decide),
      rowCell_stateStep_other _ _ _ (by decide),
      rowCell_sentStep_self, if_pos hin,
      rowCell_yearMonthStep_other _ _ _ (by decide) (by decide), hnull]
    rfl
  · intro hin hnull
    rw [extractRow, rowCell_sentStep_other _ _ _ _ _ (by decide),
      rowCell_sentStep_other _ _ _ _ _ (by decide),
      rowCell_sentStep_other _ _ _ _ _ (by decide),
      rowCell_sentStep_self, if_pos hin,
      rowCell_sentStep_other _ _ _ _ _ (by decide),
      rowCell_stateStep_other _ _ _ (by decide),
      rowCell_sentStep_other _ _ _ _ _ (by decide),
      rowCell_yearMonthStep_other _ _ _ (by decide) (by decide), hnull]
    rfl
  · intro hout
    rw [extractRow, rowCell_sentStep_other _ _ _ _ _ (by decide),
      rowCell_sentStep_other _ _ _ _ _ (by decide),
      rowCell_sentStep_other _ _ _ _ _ (by decide),
      rowCell_sentStep_self, if_neg hout]

/-- Witness for the amended C8: the join-missed column and the absent fact
value both come out as the same `__NULL__`. -/
theorem partition_sentinel_single_witness :
    rowCell (extractRow ["payer_slug", "proc_set"]
        [("payer_slug", none), ("proc_set", none)]) "payer_slug"
      = some "__NULL__"
    ∧ rowCell (extractRow ["payer_slug", "proc_set"]
        [("payer_slug", none), ("proc_set", none)]) "procedure_set"
      = some "__NULL__" :=
  ⟨(partition_sentinel_single ["payer_slug", "proc_set"]
      [("payer_slug", none), ("proc_set", none)]).1 (by decide) (by decide),
   (partition_sentinel_single ["payer_slug", "proc_set"]
      [("payer_slug", none), ("proc_set", none)]).2.1 (by decide) (by decide)⟩

theorem flatMap_length_ge {α β : Type} (l : List α) (g : α → List β)
    (h : ∀ a ∈ l, 1 ≤ (g a).length) : l.length ≤ (l.flatMap g).length := by
  induction l with
  | nil => simp
  | cons a t ih =>
      rw [List.flatMap_cons, List.length_append, List.length_cons]
      have h1 := h a (List.mem_cons_self a t)
      have h2 := ih fun x hx => h x (List.mem_cons_of_mem a hx)
      omega

theorem leftJoin_rows_length (L R : Frame) (onPairs : List (String × String))
    (suffix : String) :
    L.rows.length ≤ (leftJoin L R onPairs suffix).rows.length := by
  show L.rows.length ≤ (L.rows.flatMap _).length
  apply flatMap_length_ge
  intro a _
  rcases hf : R.rows.filter (fun b => joinMatch onPairs a b) with _ | ⟨b, bs⟩
  · exact Nat.le_refl 1
  · show 1 ≤ (List.map (fun b =>
      joinCombine L.cols suffix (rightKeepCols R.cols onPairs) a (some b)) (b :: bs)).length
    simp only [List.length_map, List.length_cons]
    exact Nat.succ_le_succ (Nat.zero_le _)

theorem joinIfSome_rows_length (e : Frame) (o : Option Frame)
    (onPairs : List (String × String)) (suffix : String) :
    e.rows.length ≤ (joinIfSome e o onPairs suffix).rows.length := by
  cases o with
  | none => exact le_refl _
  | some d => exact leftJoin_rows_length e d onPairs suffix

theorem joinNpiStep_rows_length (e : Frame) (x d : Option Frame) :
    e.rows.length ≤ (joinNpiStep e x d).rows.length := by
  cases x with
  | none => cases d <;> exact le_refl _
  | some xf =>
      cases d with
      | none => exact le_refl _
      | some df =>
          exact le_trans (leftJoin_rows_length e xf [("pg_uid", "pg_uid")] "_right")
            (leftJoin_rows_length _ df [("npi", "npi")] "_right")

theorem joinGeoStep_rows_length (e : Frame) (o : Option Frame) :
    e.rows.length ≤ (joinGeoStep e o).rows.length := by
  cases o with
  | none => exact le_refl _
  | some d =>
      rw [joinGeoStep]
      split
      · exact leftJoin_rows_length e _ _ _
      · exact le_refl _

theorem extractPartitionKeys_rows_length (raises : Bool) (f : Frame) :
    (extractPartitionKeys raises f).rows.length = f.rows.length := by
  rw [extractPartitionKeys]
  cases raises <;> simp

/-- **C5** — every enrichment join is a left join from the fact side: the
enriched output never has fewer rows than the input batch, and a fact row
with no match in a reference table survives the join as itself extended
with null cells for that reference's columns. -/
theorem enrich_left_join_row_preserving :
    (∀ (raises : Bool) (fact : Frame) (dims : Dimensions) (xrefs : Xrefs),
        fact.rows.length ≤ (enrichFactTable raises fact dims xrefs).rows.length)
      ∧ (∀ (L R : Frame) (onPairs : List (String × String)) (suffix : String)
          (a : DRow), a ∈ L.rows →
          R.rows.filter (fun b => joinMatch onPairs a b) = [] →
          joinCombine L.cols suffix (rightKeepCols R.cols onPairs) a none
              ∈ (leftJoin L R onPairs suffix).rows
            ∧ joinCombine L.cols suffix (rightKeepCols R.cols onPairs) a none
              = a ++ (rightKeepCols R.cols onPairs).map
                  (fun c => (renameRight L.cols suffix c, (none : Option String)))) := by
  constructor
  · intro raises fact dims xrefs
    simp only [enrichFactTable]
    rw [extractPartitionKeys_rows_length]
    refine le_trans (joinIfSome_rows_length fact dims.code
      [("code_type", "code_type"), ("code", "code")] "_right") ?_
    refine le_trans (joinIfSome_rows_length _ dims.code_cat
      [("code", "proc_cd")] "_right") ?_
    refine le_trans (joinIfSome_rows_length _ dims.payer
      [("payer_slug", "payer_slug")] "_right") ?_
    refine le_trans (joinIfSome_rows_length _ dims.provider_group
      [("pg_uid", "pg_uid")] "_right") ?_
    refine le_trans (joinIfSome_rows_length _ dims.pos_set
      [("pos_set_id", "pos_set_id")] "_right") ?_
    refine le_trans (joinNpiStep_rows_length _ xrefs.pg_member_npi dims.npi) ?_
    refine le_trans (joinIfSome_rows_length _ xrefs.pg_member_tin
      [("pg_uid", "pg_uid")] "_right") ?_
    exact joinGeoStep_rows_length _ dims.npi_address_geo
  · intro L R onPairs suffix a ha hf
    refine ⟨?_, rfl⟩
    show _ ∈ L.rows.flatMap _
    refine List.mem_flatMap.2 ⟨a, ha, ?_⟩
    rw [hf]
    exact List.mem_singleton.2 rfl

/-- Witness for C5: a fact row joined against an empty reference table
survives with a null reference column. -/
theorem enrich_left_join_row_preserving_witness :
    joinCombine ["code"] "_right" (rightKeepCols ["proc_cd", "cat"] [("code", "proc_cd")])
        [("code", some "A")] none
      ∈ (leftJoin { cols := ["code"], rows := [[("code", some "A")]] }
          { cols := ["proc_cd", "cat"], rows := [] }
          [("code", "proc_cd")] "_right").rows :=
  (enrich_left_join_row_preserving.2
    { cols := ["code"], rows := [[("code", some "A")]] }
    { cols := ["proc_cd", "cat"], rows := [] }
    [("code", "proc_cd")] "_right" [("code", some "A")]
    (by decide) (by decide)).1

section CompactionProofs

variable {Row : Type} [DecidableEq Row]

omit [DecidableEq Row] in
theorem toBatches_flatten (b : Nat) (l : List (List Row)) :
    (toBatches b l).flatten = l := by
  generalize hn : l.length = n
  induction n using Nat.strong_induction_on generalizing l with
  | _ n ih =>
      cases l with
      | nil => simp [toBatches]
      | cons x xs =>
          rw [toBatches, List.flatten_cons]
          have hlt : (xs.drop (b - 1)).length < n := by
            subst hn
            simp only [List.length_drop, List.length_cons]
            omega
          rw [ih _ hlt _ rfl, List.cons_append, List.take_append_drop]

theorem mergeOnce_true (fl : List (List Row)) :
    mergeOnce true fl = fl.flatten := rfl

theorem mergeOnce_false (fl : List (List Row)) :
    mergeOnce false fl = fl.flatten.dedup := rfl

omit [DecidableEq Row] in
theorem flatten_map_flatten (l : List (List (List Row))) :
    (l.map List.flatten).flatten = l.flatten.flatten := by
  induction l with
  | nil => rfl
  | cons x t ih => simp [List.flatten_append, ih]

theorem mergeTempFiles_fact (b : Nat) (files : List (List Row)) :
    mergeTempFiles "fact_rate" b files
      = if files.isEmpty then none else some files.flatten := by
  match files with
  | [] => rfl
  | [f] => simp [mergeTempFiles]
  | f₁ :: f₂ :: rest =>
      rw [show mergeTempFiles "fact_rate" b (f₁ :: f₂ :: rest)
          = (if (f₁ :: f₂ :: rest).length ≤ b then
              some (mergeOnce true (f₁ :: f₂ :: rest))
            else
              match (toBatches b (f₁ :: f₂ :: rest)).map (mergeOnce true) with
              | [g] => some g
              | _ => some (mergeOnce true
                  ((toBatches b (f₁ :: f₂ :: rest)).map (mergeOnce true))))
          from rfl]
      rw [show (if (f₁ :: f₂ :: rest).isEmpty then (none : Option (List Row))
          else some (f₁ :: f₂ :: rest).flatten)
          = some (f₁ :: f₂ :: rest).flatten from rfl]
      have hflat := toBatches_flatten b (f₁ :: f₂ :: rest)
      split
      · rw [mergeOnce_true]
      · rcases hbat : toBatches b (f₁ :: f₂ :: rest) with _ | ⟨batch, batches⟩
        · rw [hbat] at hflat
          simp at hflat
        · rw [hbat] at hflat
          cases batches with
          | nil =>
              simp only [List.map_cons, List.map_nil, mergeOnce_true]
              simp only [List.flatten_cons, List.flatten_nil,
                List.append_nil] at hflat
              rw [hflat]
          | cons b2 bs =>
              simp only [List.map_cons, mergeOnce_true]
              rw [show List.flatten batch :: List.flatten b2
                    :: List.map (mergeOnce true) bs
                  = (batch :: b2 :: bs).map List.flatten from rfl]
              rw [flatten_map_flatten, hflat]

theorem mergeTempFiles_dim_spec (t : String) (b : Nat)
    (files : List (List Row)) (ht : (t == "fact_rate") = false)
    (h2 : 2 ≤ files.length) :
    ∃ X, mergeTempFiles t b files = some X ∧ X.Nodup
      ∧ ∀ a, a ∈ X ↔ a ∈ files.flatten := by
  match files, h2 with
  | f₁ :: f₂ :: rest, _ =>
      rw [show mergeTempFiles t b (f₁ :: f₂ :: rest)
          = (if (f₁ :: f₂ :: rest).length ≤ b then
              some (mergeOnce (t == "fact_rate") (f₁ :: f₂ :: rest))
            else
              match (toBatches b (f₁ :: f₂ :: rest)).map
                  (mergeOnce (t == "fact_rate")) with
              | [g] => some g
              | _ => some (mergeOnce (t == "fact_rate")
                  ((toBatches b (f₁ :: f₂ :: rest)).map
                    (mergeOnce (t == "fact_rate")))))
          from rfl]
      rw [ht]
      have hflat := toBatches_flatten b (f₁ :: f₂ :: rest)
      split
      · refine ⟨_, rfl, ?_, ?_⟩
        · rw [mergeOnce_false]
          exact List.nodup_dedup _
        · intro a
          rw [mergeOnce_false, List.mem_dedup]
      · rcases hbat : toBatches b (f₁ :: f₂ :: rest) with _ | ⟨batch, batches⟩
        · rw [hbat] at hflat
          simp at hflat
        · rw [hbat] at hflat
          cases batches with
          | nil =>
              simp only [List.map_cons, List.map_nil]
              refine ⟨_, rfl, ?_, ?_⟩
              · rw [mergeOnce_false]
                exact List.nodup_dedup _
              · intro a
                rw [mergeOnce_false, List.mem_dedup]
                simp only [List.flatten_cons, List.flatten_nil,
                  List.append_nil] at hflat
                rw [hflat]
          | cons b2 bs =>
              simp only [List.map_cons]
              refine ⟨_, rfl, ?_, ?_⟩
              · rw [mergeOnce_false]
                exact List.nodup_dedup _
              · intro a
                rw [mergeOnce_false, List.mem_dedup]
                rw [show (mergeOnce false batch) :: (mergeOnce false b2)
                      :: bs.map (mergeOnce false)
                    = (batch :: b2 :: bs).map (mergeOnce false) from rfl]
                rw [← hflat]
                simp only [List.mem_flatten, List.mem_map]
                constructor
                · rintro ⟨s, ⟨bt, hbt, rfl⟩, hs⟩
                  rw [mergeOnce_false, List.mem_dedup, List.mem_flatten] at hs
                  obtain ⟨s2, hs2, has⟩ := hs
                  exact ⟨s2, ⟨bt, hbt, hs2⟩, has⟩
                · rintro ⟨s, ⟨bt, hbt, hsbt⟩, has⟩
                  exact ⟨mergeOnce false bt, ⟨bt, hbt, rfl⟩, by
                    rw [mergeOnce_false]
                    exact List.mem_dedup.2 (List.mem_flatten.2 ⟨s, hsbt, has⟩)⟩

/-- **C6** — compaction is batch-size invariant: for any two batch sizes
the final object holds the same rows up to order (for the fact table a
plain concatenation, for dimension tables the distinct rows of the
concatenation), and a single staging file short-circuits to a rename. -/
theorem merge_temp_files_batch_size_invariant :
    (∀ (t : String) (b₁ b₂ : Nat) (files : List (List Row)),
        optPerm (mergeTempFiles t b₁ files) (mergeTempFiles t b₂ files))
      ∧ (∀ (t : String) (b : Nat) (f : List Row),
          mergeTempFiles t b [f] = some f) := by
  constructor
  · intro t b₁ b₂ files
    by_cases ht : (t == "fact_rate") = true
    · have heq : t = "fact_rate" := by simpa using ht
      subst heq
      rw [mergeTempFiles_fact, mergeTempFiles_fact]
      by_cases hfe : files.isEmpty
      · rw [if_pos hfe]
        trivial
      · rw [if_neg hfe]
        exact List.Perm.refl _
    · have ht' : (t == "fact_rate") = false := by
        simpa using ht
      match files with
      | [] => trivial
      | [f] => exact List.Perm.refl f
      | f₁ :: f₂ :: rest =>
          obtain ⟨X₁, hX₁, hn₁, hm₁⟩ :=
            mergeTempFiles_dim_spec t b₁ (f₁ :: f₂ :: rest) ht' (by simp)
          obtain ⟨X₂, hX₂, hn₂, hm₂⟩ :=
            mergeTempFiles_dim_spec t b₂ (f₁ :: f₂ :: rest) ht' (by simp)
          rw [hX₁, hX₂]
          exact (List.perm_ext_iff_of_nodup hn₁ hn₂).2
            fun a => (hm₁ a).trans (hm₂ a).symm
  · intro t b f
    rfl

end CompactionProofs

/-- **C9 counterexample** — a run in which the second chunk fails is
indistinguishable, summary included, from a clean run whose second chunk
is empty: the summary carries no error count and no skipped-chunk count,
and `total_chunks_processed` reports the planned count 2 although only one
chunk was processed. -/
theorem run_summary_no_error_count_cex :
    runEtl3Pipeline "b" "p" "d" "t" [ChunkOutcome.ok 100 5, ChunkOutcome.failed]
        = runEtl3Pipeline "b" "p" "d" "t"
            [ChunkOutcome.ok 100 5, ChunkOutcome.ok 0 0]
      ∧ (runEtl3Pipeline "b" "p" "d" "t"
          [ChunkOutcome.ok 100 5, ChunkOutcome.failed]).total_chunks_processed = 2
      ∧ "error_count" ∉ summaryKeys
      ∧ "skipped_chunks" ∉ summaryKeys := by
  refine ⟨?_, ?_, ?_, ?_⟩ <;> decide

/-- **C9 (amended)** — a chunk failure is skipped and the run completes
with status SUCCESS; the skip is visible only indirectly: skipped chunks
contribute nothing to `total_input_rows` and `total_partitions_created`,
while `total_chunks_processed` still reports the planned chunk count and
the summary holds no error or skipped-chunk field. -/
theorem run_summary_reports (bucket pfx db table : String)
    (outcomes : List ChunkOutcome) :
    (runEtl3Pipeline bucket pfx db table outcomes).status = "SUCCESS"
      ∧ (runEtl3Pipeline bucket pfx db table outcomes).total_chunks_processed
          = outcomes.length
      ∧ (runEtl3Pipeline bucket pfx db table outcomes).total_input_rows
          = (runChunkLoop (0, 0) outcomes).1
      ∧ (runEtl3Pipeline bucket pfx db table outcomes).total_partitions_created
          = (runChunkLoop (0, 0) outcomes).2
      ∧ (∀ (acc : Nat × Nat) (rest : List ChunkOutcome),
          runChunkLoop acc (ChunkOutcome.failed :: rest) = runChunkLoop acc rest)
      ∧ "error_count" ∉ summaryKeys :=
  ⟨rfl, rfl, rfl, rfl, fun _ _ => rfl, by decide⟩

end WorkcompETL
